import Mathlib

set_option maxHeartbeats 1000000
set_option linter.unnecessarySeqFocus false
set_option linter.unreachableTactic false
set_option linter.unusedTactic false

namespace ExampleRenderer

/-- Split a character list at newline characters (auxiliary to `splitlines`). -/
def splitNl : List Char → List (List Char)
  | [] => [[]]
  | c :: cs =>
    if c = '\n' then [] :: splitNl cs
    else
      match splitNl cs with
      | [] => [[c]]
      | l :: ls => (c :: l) :: ls

/-- Python `str.splitlines` restricted to strings whose only line-boundary
character is `'\n'` (the renderer only ever produces such strings): split on
newlines, without keeping the line ends, and without a trailing empty
fragment when the string ends in a newline. -/
def splitlines (s : String) : List String :=
  if s.data = [] then []
  else
    let parts := (splitNl s.data).map fun cs => String.mk cs
    if parts.getLast? = some "" then parts.dropLast else parts

mutual
/-- A Python value as it can occur in an option's `example`: `None`, a bool,
an int, a float (carried by its `str()` rendering, the only aspect the
renderer consumes), a string, a list, or a dict with string keys (dicts keep
insertion order, modelled as a pair list). -/
inductive PyValue where
  | pynone : PyValue
  | pybool : Bool → PyValue
  | pyint : Int → PyValue
  | pyfloat : String → PyValue
  | pystr : String → PyValue
  | pylist : PyList → PyValue
  | pydict : PyPairs → PyValue

/-- A Python list of `PyValue`s. -/
inductive PyList where
  | nil : PyList
  | cons : PyValue → PyList → PyList

/-- A Python dict with string keys in insertion order. -/
inductive PyPairs where
  | nil : PyPairs
  | cons : String → PyValue → PyPairs → PyPairs
end

/-- `n` spaces of block indentation. -/
def pad (n : Nat) : String :=
  String.mk (List.replicate n ' ')

/-- Model of the YAML library's single-quote escaping: double every quote. -/
def escapeSingleQuotes (s : String) : String :=
  String.mk (s.data.foldr (fun c acc => if c = '\x27' then '\x27' :: '\x27' :: acc else c :: acc) [])

/-- Model of the YAML library's decision to emit a string as a plain (unquoted)
scalar. The approximation is conservative: only strings that are clearly safe
(non-empty, made of alphanumerics and a few punctuation characters, starting
with a letter, and not a YAML boolean/null word) stay plain; everything else is
single-quoted. -/
def plainScalarOk (s : String) : Bool :=
  s ≠ "" &&
  s.data.all (fun c => c.isAlphanum || c = '-' || c = '_' || c = '.' || c = '/' || c = ' ') &&
  (s.data.headD ' ').isAlpha &&
  !(s.data.getLastD ' ' = ' ') &&
  !(["y", "Y", "yes", "Yes", "YES", "n", "N", "no", "No", "NO",
     "true", "True", "TRUE", "false", "False", "FALSE",
     "on", "On", "ON", "off", "Off", "OFF", "null", "Null", "NULL", "~"].contains s)

/-- Model of the YAML library's rendering of a string scalar: plain when safe,
single-quoted otherwise. -/
def yamlStr (s : String) : String :=
  if plainScalarOk s then s else "\x27" ++ escapeSingleQuotes s ++ "\x27"

/-- Model of the YAML library's rendering of a scalar value (`None`, bool,
int, float, string). Non-scalars are never passed to it by the dumper below. -/
def scalarRepr : PyValue → String
  | .pynone => "null"
  | .pybool b => if b then "true" else "false"
  | .pyint n => toString n
  | .pyfloat r => r
  | .pystr s => yamlStr s
  | .pylist _ => ""
  | .pydict _ => ""

mutual
/-- Model of the YAML library's block-style dump of a non-empty mapping at
indentation `ind`: one entry per pair, each starting at column `ind`. -/
def dumpMap : PyPairs → Nat → String
  | .nil, _ => ""
  | .cons k v tl, ind => pad ind ++ entryCore k v ind ++ dumpMap tl ind

/-- One mapping entry (`key:` plus its value), without the leading padding:
scalars and empty collections stay on the key's line; a non-empty nested
mapping is indented two further columns; a non-empty nested sequence is
emitted indentless (at the mapping's own column), matching the library's
default block style. -/
def entryCore (k : String) (v : PyValue) (ind : Nat) : String :=
  yamlStr k ++ ":" ++
    (match v with
     | .pylist .nil => " []\n"
     | .pydict .nil => " \x7b\x7d\n"
     | .pylist (.cons x xs) => "\n" ++ dumpSeq (.cons x xs) ind
     | .pydict (.cons k2 v2 tl2) => "\n" ++ dumpMap (.cons k2 v2 tl2) (ind + 2)
     | s => " " ++ scalarRepr s ++ "\n")

/-- Model of the YAML library's block-style dump of a non-empty sequence at
indentation `ind`: one `- ` item per element. -/
def dumpSeq : PyList → Nat → String
  | .nil, _ => ""
  | .cons v tl, ind => pad ind ++ "-" ++ itemCore v ind ++ dumpSeq tl ind

/-- One sequence item after its `-` marker: scalars and empty collections
inline; a mapping item starts inline after the marker with its remaining
entries at `ind + 2`; a nested sequence likewise starts inline. -/
def itemCore (v : PyValue) (ind : Nat) : String :=
  match v with
  | .pylist .nil => " []\n"
  | .pydict .nil => " \x7b\x7d\n"
  | .pydict (.cons k w tl) => " " ++ entryCore k w (ind + 2) ++ dumpMap tl (ind + 2)
  | .pylist (.cons w tl) => " " ++ "-" ++ itemCore w (ind + 2) ++ dumpSeq tl (ind + 2)
  | s => " " ++ scalarRepr s ++ "\n"
end

/-- Model of `yaml.safe_dump(obj, default_flow_style=False, sort_keys=False)`
(the external YAML library call wrapped by `construct_yaml` in the source):
block style, keys kept in insertion order, empty collections in flow style,
a bare scalar followed by a document-end marker. -/
def construct_yaml (obj : PyValue) : String :=
  match obj with
  | .pydict .nil => "\x7b\x7d\n"
  | .pylist .nil => "[]\n"
  | .pydict (.cons k v tl) => dumpMap (.cons k v tl) 0
  | .pylist (.cons v tl) => dumpSeq (.cons v tl) 0
  | v => scalarRepr v ++ "\n...\n"

/-- The `items` sub-dict of an array-typed value: only its `type` key is ever
consulted (`value['items']['type']`). -/
structure ItemSpec where
  type : String
deriving DecidableEq

/-- The `value` dict of a value option: its declared `type`, its optional
`items` sub-dict (consulted only for arrays), and its optional `example`
(`value.get('example')`). -/
structure ValueSpec where
  type : String
  items : Option ItemSpec
  exampleKey : Option PyValue

/-- `DESCRIPTION_LINE_LENGTH_LIMIT` from the source. -/
def DESCRIPTION_LINE_LENGTH_LIMIT : Nat := 120

/-- `value_type_string` from the source: map a value's declared type to its
human-readable noun phrase. `none` models the `KeyError` raised by
`value['items']` when an array value lacks an `items` dict. -/
def value_type_string (value : ValueSpec) : Option String :=
  let value_type := value.type
  if value_type = "object" then some "mapping"
  else if value_type = "array" then
    match value.items with
    | none => none
    | some items =>
      let item_type := items.type
      if item_type = "object" then some "list of mappings"
      else if item_type = "array" then some "list of lists"
      else some ("list of " ++ item_type ++ "s")
  else some value_type

/-- Modelled from the spec: `default_option_example` (imported from the
configuration utils module, which is not among the rendered sources) returns
the name-derived conventional default example string for an option name — the
option's name upper-cased inside angle brackets, the convention the spec's
"name-derived default" glossary entry refers to. -/
def default_option_example (option_name : String) : String :=
  "<" ++ String.mk (option_name.data.map Char.toUpper) ++ ">"

/-- Python's `s[:-2]` slice (used as `indent[:-2]` / `next_indent[:-2]` in the
source): the string without its last two characters. -/
def dropLast2 (s : String) : String :=
  String.mk s.data.dropLast.dropLast

/-- `OptionWriter` from the source: an append-only text buffer plus the list
of diagnostics recorded so far. -/
structure OptionWriter where
  contents : String
  errors : List String
deriving DecidableEq

/-- `OptionWriter.write`: append text to the buffer (the source's variadic
`write(*strings)` is the iterated form of this). -/
def OptionWriter.write (w : OptionWriter) (s : String) : OptionWriter :=
  { w with contents := w.contents ++ s }

/-- `OptionWriter.new_error`: record a diagnostic. -/
def OptionWriter.new_error (w : OptionWriter) (s : String) : OptionWriter :=
  { w with errors := w.errors ++ [s] }

/-- A fresh `OptionWriter()`. -/
def OptionWriter.empty : OptionWriter := { contents := "", errors := [] }

mutual
/-- A schema-node dict as `write_option` consumes it. Keys that the source
reads with a raising lookup (`option['required']`, `option['multiple']`) are
`Option`-valued so a missing key can be modelled; `hasOptions` models the
`'options' in option` membership test (a present-but-empty `options` list is
distinct from an absent one); `example` is the section-level
`option.get('example', ...)` key. -/
inductive SchemaOption where
  | mk : (name : String) → (description : String) → (required : Option Bool) →
      (value : Option ValueSpec) → (hasOptions : Bool) → (options : SchemaOptions) →
      (multiple : Option Bool) → (exampleKey : Option PyValue) → SchemaOption

/-- An ordered sequence of schema nodes (a section's `options` list). -/
inductive SchemaOptions where
  | nil : SchemaOptions
  | cons : SchemaOption → SchemaOptions → SchemaOptions
end

/-- The `name` field of a schema node. -/
def SchemaOption.name : SchemaOption → String
  | .mk n _ _ _ _ _ _ _ => n

/-- The `description` field of a schema node. -/
def SchemaOption.description : SchemaOption → String
  | .mk _ d _ _ _ _ _ _ => d

/-- The `required` key of a schema node (`none` models a missing key). -/
def SchemaOption.required : SchemaOption → Option Bool
  | .mk _ _ r _ _ _ _ _ => r

/-- The `value` key of a schema node (`none` models a missing key). -/
def SchemaOption.value : SchemaOption → Option ValueSpec
  | .mk _ _ _ v _ _ _ _ => v

/-- Whether the `options` key is present on a schema node. -/
def SchemaOption.hasOptions : SchemaOption → Bool
  | .mk _ _ _ _ h _ _ _ => h

/-- The `options` list of a schema node (meaningful when `hasOptions`). -/
def SchemaOption.options : SchemaOption → SchemaOptions
  | .mk _ _ _ _ _ os _ _ => os

/-- The `multiple` key of a schema node (`none` models a missing key). -/
def SchemaOption.multiple : SchemaOption → Option Bool
  | .mk _ _ _ _ _ _ m _ => m

/-- The section-level `example` key of a schema node. -/
def SchemaOption.exampleKey : SchemaOption → Option PyValue
  | .mk _ _ _ _ _ _ _ e => e

/-- One iteration of the description loop shared by both branches of
`write_option` (source lines 79–93 for value options with `kind = "option"`,
lines 110–124 for sections with `kind = "section"`): a non-empty line is
prefixed with the indent and `## `, checked against the length limit (the
`check` flag is `true` for the source's behavior; `false` gives the spec's
hypothetical renderer with no length check), and emitted untruncated; an
empty line becomes a bare `##` marker; every line ends with a newline. -/
def format_description_line (check : Bool) (indent kind option_name line : String)
    (writer : OptionWriter) : OptionWriter :=
  if line ≠ "" then
    let line := indent ++ "## " ++ line
    let writer :=
      if check ∧ line.length > DESCRIPTION_LINE_LENGTH_LIMIT then
        writer.new_error
          ("Description line length of " ++ kind ++ " `" ++ option_name ++
            "` was over the limit by " ++ toString (line.length - DESCRIPTION_LINE_LENGTH_LIMIT) ++
            " character" ++
            (if line.length - DESCRIPTION_LINE_LENGTH_LIMIT > 1 then "s" else ""))
      else writer
    (writer.write line).write "\n"
  else
    (writer.write (indent ++ "##")).write "\n"

/-- The full description loop of `write_option`, folded over the lines of
`option['description'].splitlines()`. -/
def write_description (check : Bool) (indent kind option_name : String) (lines : List String)
    (writer : OptionWriter) : OptionWriter :=
  lines.foldl (fun w line => format_description_line check indent kind option_name line w) writer

mutual
/-- `write_option(option, writer, indent, start_list)` from the source,
threaded through an explicit writer state; `none` models an uncaught
`KeyError` (a raising dict lookup that found no key). The `check` flag is
`true` for the source's renderer and `false` for the spec's hypothetical
renderer with the description-length check removed; it is threaded through
untouched and consulted only by `format_description_line`. -/
def write_option_aux (check : Bool) (option : SchemaOption) (writer : OptionWriter)
    (indent : String) (start_list : Bool) : Option OptionWriter :=
  match option with
  | .mk option_name description required? value? hasOptions options multiple? exampleKey? =>
    match value? with
    | some value =>
      match required? with
      | none => none
      | some required =>
        match value_type_string value with
        | none => none
        | some type_str =>
          let writer := writer.write (indent ++ "## " ++ option_name ++ " - " ++ type_str ++
            " - " ++ (if required then "required" else "optional"))
          let exampleV := value.exampleKey
          let writer :=
            if required then writer
            else
              match exampleV with
              | some (.pybool b) => writer.write (" - default: " ++ (if b then "true" else "false"))
              | some (.pyint n) => writer.write (" - default: " ++ toString n)
              | some (.pyfloat r) => writer.write (" - default: " ++ r)
              | some (.pystr s) =>
                if s ≠ default_option_example option_name then writer.write (" - default: " ++ s)
                else writer
              | _ => writer
          let writer := writer.write "\n"
          let writer := write_description check indent "option" option_name
            (splitlines description) writer
          let writer := writer.write (indent ++ "#\n")
          let exampleVal := match exampleV with | some v => v | none => .pynone
          let dumped : String × String :=
            if start_list then
              (construct_yaml (.pylist (.cons (.pydict (.cons option_name exampleVal .nil)) .nil)),
                dropLast2 indent)
            else
              (construct_yaml (.pydict (.cons option_name exampleVal .nil)), indent)
          let option_yaml := dumped.1
          let indent := dumped.2
          let writer := (splitlines option_yaml).foldl
            (fun w line =>
              let w := w.write indent
              let w := if ¬required then w.write "# " else w
              w.write (line ++ "\n"))
            writer
          some writer
    | none =>
      let writer := write_description check indent "section" option_name
        (splitlines description) writer
      let writer := writer.write (indent ++ "#\n")
      if hasOptions then
        match multiple? with
        | none => none
        | some multiple =>
          let next_indent := indent ++ "    "
          let writer := writer.write (indent ++ option_name ++ ":" ++ "\n")
          match options with
          | .cons o os => write_options_loop check (.cons o os) writer next_indent multiple true
          | .nil =>
            if multiple then some (writer.write ("\n" ++ dropLast2 next_indent ++ "- \x7b\x7d\n"))
            else some writer
      else
        let multiple := match multiple? with | some b => b | none => false
        let exampleV :=
          match exampleKey? with
          | some e => e
          | none => if multiple then .pylist .nil else .pydict .nil
        let option_yaml := construct_yaml (.pydict (.cons option_name exampleV .nil))
        some ((splitlines option_yaml).foldl
          (fun w line => w.write (indent ++ "# " ++ line ++ "\n")) writer)

/-- The `for i, opt in enumerate(options)` loop of the section branch of
`write_option`: each child is preceded by a blank line; the first child of a
`multiple` section is dispatched on its (raising) `required` lookup — rendered
with `start_list` when required, preceded by a standalone dedented `-` line
otherwise; all other children are rendered normally one indent level deeper. -/
def write_options_loop (check : Bool) (opts : SchemaOptions) (writer : OptionWriter)
    (next_indent : String) (multiple : Bool) (is_first : Bool) : Option OptionWriter :=
  match opts with
  | .nil => some writer
  | .cons opt rest =>
    let writer := writer.write "\n"
    let step : Option OptionWriter :=
      if is_first ∧ multiple then
        match opt.required with
        | none => none
        | some r =>
          if r then write_option_aux check opt writer next_indent true
          else
            let writer := writer.write (dropLast2 next_indent ++ "-\n")
            write_option_aux check opt writer next_indent false
      else write_option_aux check opt writer next_indent false
    match step with
    | none => none
    | some writer => write_options_loop check rest writer next_indent multiple false
end

/-- The source's `write_option` (the `check` flag instantiated to its actual
behavior: the description-length check is performed). -/
def write_option (option : SchemaOption) (writer : OptionWriter) (indent : String := "")
    (start_list : Bool := false) : Option OptionWriter :=
  write_option_aux true option writer indent start_list

/-- The spec's comparison renderer for §7: `write_option` exactly as it would
be if no description-length check existed. -/
def write_option_unchecked (option : SchemaOption) (writer : OptionWriter)
    (indent : String := "") (start_list : Bool := false) : Option OptionWriter :=
  write_option_aux false option writer indent start_list

/-- One entry of `spec['files']`: the output key `example_name` and the
file's ordered top-level options. -/
structure SpecFile where
  example_name : String
  options : List SchemaOption

/-- The already-loaded spec data handed to `ExampleConsumer`: its `files`
list (the only key the consumer reads). -/
structure ConfigSpecData where
  files : List SpecFile

/-- The body of `ExampleConsumer.render`'s inner loop: render each top-level
option of a file at the empty indent, writing a blank line after every option
except the last. -/
def render_options : List SchemaOption → OptionWriter → Option OptionWriter
  | [], writer => some writer
  | [option] , writer => write_option option writer "" false
  | option :: next :: rest, writer =>
    match write_option option writer "" false with
    | none => none
    | some writer => render_options (next :: rest) (writer.write "\n")

/-- Render one file with a fresh `OptionWriter`, producing the pair
`(writer.contents, writer.errors)` stored into the result mapping. -/
def render_file (file : SpecFile) : Option (String × List String) :=
  (render_options file.options OptionWriter.empty).map fun w => (w.contents, w.errors)

/-- Assignment into a Python (ordered) dict modelled as a pair list: an
existing key keeps its position and gets the new value; a new key is appended
at the end. -/
def odInsert (m : List (String × α)) (k : String) (v : α) : List (String × α) :=
  if m.any (fun p => p.1 = k) then m.map (fun p => if p.1 = k then (k, v) else p)
  else m ++ [(k, v)]

/-- The file loop of `ExampleConsumer.render`, folding the per-file results
into the ordered mapping. -/
def render_files : List SpecFile → List (String × (String × List String)) →
    Option (List (String × (String × List String)))
  | [], acc => some acc
  | file :: rest, acc =>
    match render_file file with
    | none => none
    | some r => render_files rest (odInsert acc file.example_name r)

/-- `ExampleConsumer` from the source: holds the loaded spec data. -/
structure ExampleConsumer where
  spec : ConfigSpecData

/-- `ExampleConsumer.render`: the mapping from each file's `example_name` to
its `(contents, errors)` pair, in insertion order. -/
def ExampleConsumer.render (c : ExampleConsumer) :
    Option (List (String × (String × List String))) :=
  render_files c.spec.files []

/-- The exact shape of a length diagnostic: kind (`"option"` or `"section"`),
the owning option's name, and the number of characters over the limit, with
`"character"` pluralized exactly when that number exceeds one. -/
def diagMsg (kind option_name : String) (n : Nat) : String :=
  "Description line length of " ++ kind ++ " `" ++ option_name ++
    "` was over the limit by " ++ toString n ++ " character" ++ (if n > 1 then "s" else "")

/-- Concatenation of a list of strings. -/
def strJoin : List String → String
  | [] => ""
  | s :: rest => s ++ strJoin rest

/-- Closed form of the text the description loop appends: each non-empty line
prefixed with the indent and `## `, each empty line a bare `##` marker, every
line newline-terminated. -/
def description_text (indent : String) (lines : List String) : String :=
  strJoin (lines.map fun l => (if l ≠ "" then indent ++ "## " ++ l else indent ++ "##") ++ "\n")

/-- Closed form of the diagnostics the description loop records: one
`diagMsg` per non-empty formatted line over the length limit. -/
def description_errors (indent kind option_name : String) (lines : List String) : List String :=
  lines.filterMap fun l =>
    if l ≠ "" ∧ (indent ++ "## " ++ l).length > DESCRIPTION_LINE_LENGTH_LIMIT then
      some (diagMsg kind option_name ((indent ++ "## " ++ l).length - DESCRIPTION_LINE_LENGTH_LIMIT))
    else none

/-- Closed form of the default-value suffix appended to an optional value
option's header, by the runtime kind of the example. -/
def header_default_suffix (option_name : String) (ex : Option PyValue) : String :=
  match ex with
  | some (.pybool b) => " - default: " ++ (if b then "true" else "false")
  | some (.pyint n) => " - default: " ++ toString n
  | some (.pyfloat r) => " - default: " ++ r
  | some (.pystr s) =>
    if s ≠ default_option_example option_name then " - default: " ++ s else ""
  | _ => ""

/-- Closed form of the serialized-example block of a value option: every line
of the YAML fragment prefixed with the effective indent and, for optional
options only, an extra `# ` comment marker. -/
def example_block (indent : String) (required : Bool) (option_yaml : String) : String :=
  strJoin ((splitlines option_yaml).map fun l =>
    indent ++ (if required then "" else "# ") ++ l ++ "\n")

/-- The header line of a value option (without its trailing newline). -/
def header_line (indent option_name type_str : String) (required : Bool)
    (ex : Option PyValue) : String :=
  indent ++ "## " ++ option_name ++ " - " ++ type_str ++ " - " ++
    (if required then "required" else "optional") ++
    (if required then "" else header_default_suffix option_name ex)

/-- Closed form of everything a value option appends to the buffer. -/
def value_option_text (indent option_name type_str description : String) (required : Bool)
    (ex : Option PyValue) (start_list : Bool) : String :=
  let exampleVal := match ex with | some v => v | none => PyValue.pynone
  let option_yaml :=
    if start_list then
      construct_yaml (.pylist (.cons (.pydict (.cons option_name exampleVal .nil)) .nil))
    else construct_yaml (.pydict (.cons option_name exampleVal .nil))
  let indent_eff := if start_list then dropLast2 indent else indent
  header_line indent option_name type_str required ex ++ "\n" ++
    description_text indent (splitlines description) ++
    indent ++ "#\n" ++
    example_block indent_eff required option_yaml

/-- The shape every length diagnostic must have: a `diagMsg` for kind
`"option"` or `"section"`, some owner name, and a positive overflow count. -/
def diag_shape (msg : String) : Prop :=
  ∃ kind nm n, (kind = "option" ∨ kind = "section") ∧ 1 ≤ n ∧ msg = diagMsg kind nm n

/-- First occurrence of each string, in order of first appearance. -/
def dedupFirst : List String → List String
  | [] => []
  | k :: ks => k :: (dedupFirst ks).filter fun x => x ≠ k

/-- First binding of a key in an association list. -/
def assocFind (m : List (String × α)) (k : String) : Option α :=
  (m.find? fun p => p.1 = k).map Prod.snd

/-- The last file of a list carrying a given `example_name`. -/
def lastFileNamed (files : List SpecFile) (k : String) : Option SpecFile :=
  files.foldl (fun acc f => if f.example_name = k then some f else acc) none

/-- The last binding of a key in an association list. -/
def lastAssoc (ps : List (String × α)) (k : String) : Option α :=
  ps.foldl (fun acc p => if p.1 = k then some p.2 else acc) none

/-- Repeated ordered-dict insertion of a pair list into the empty dict. -/
def odFold (ps : List (String × α)) : List (String × α) :=
  ps.foldl (fun m p => odInsert m p.1 p.2) []

/-- The `(example_name, result)` pairs of the files that render successfully,
in order. -/
def filePairs : List SpecFile → List (String × (String × List String))
  | [] => []
  | f :: fs =>
    match render_file f with
    | some r => (f.example_name, r) :: filePairs fs
    | none => filePairs fs

/-- The inner loop of the spec's hypothetical renderer with no length check,
mirroring `render_options`. -/
def render_options_unchecked : List SchemaOption → OptionWriter → Option OptionWriter
  | [], writer => some writer
  | [option] , writer => write_option_unchecked option writer "" false
  | option :: next :: rest, writer =>
    match write_option_unchecked option writer "" false with
    | none => none
    | some writer => render_options_unchecked (next :: rest) (writer.write "\n")

/-- One file rendered by the no-length-check renderer. -/
def render_file_unchecked (file : SpecFile) : Option (String × List String) :=
  (render_options_unchecked file.options OptionWriter.empty).map fun w => (w.contents, w.errors)

/-- The writer state after a section option (with an `options` key) has
emitted its description block, its `#` separator and its `name:` line, for the
checked (source) renderer. -/
def section_intro_writer (w : OptionWriter) (ind nm d : String) : OptionWriter :=
  { contents := w.contents ++ description_text ind (splitlines d) ++ ind ++ "#\n" ++
      ind ++ nm ++ ":\n",
    errors := w.errors ++ description_errors ind "section" nm (splitlines d) }

/-- The example value used by a section documented without structured
children: its own `example` key, defaulting to an empty sequence for
`multiple` sections and an empty mapping otherwise. -/
def section_fallback_example (multiple? : Option Bool) (ex : Option PyValue) : PyValue :=
  match ex with
  | some e => e
  | none =>
    if (match multiple? with | some b => b | none => false) then .pylist .nil else .pydict .nil

/-- A 117-character description line: its formatted `## `-prefixed form is
exactly 120 characters. -/
def c2long117 : String := "xxxxxxxxxxxxxxxxxxxxxxxxxxxxxxxxxxxxxxxxxxxxxxxxxxxxxxxxxxxxxxxxxxxxxxxxxxxxxxxxxxxxxxxxxxxxxxxxxxxxxxxxxxxxxxxxxxxxx"

/-- A 118-character description line: formatted length 121. -/
def c2long118 : String := "xxxxxxxxxxxxxxxxxxxxxxxxxxxxxxxxxxxxxxxxxxxxxxxxxxxxxxxxxxxxxxxxxxxxxxxxxxxxxxxxxxxxxxxxxxxxxxxxxxxxxxxxxxxxxxxxxxxxxx"

/-- A 120-character description line: formatted length 123. -/
def c2long120 : String := "xxxxxxxxxxxxxxxxxxxxxxxxxxxxxxxxxxxxxxxxxxxxxxxxxxxxxxxxxxxxxxxxxxxxxxxxxxxxxxxxxxxxxxxxxxxxxxxxxxxxxxxxxxxxxxxxxxxxxxxx"

section ConcreteInputs

/-- The required `port` option of the spec's end-to-end example. -/
def portRequired : SchemaOption :=
  .mk "port" "The port to use." (some true)
    (some { type := "integer", items := none, exampleKey := some (.pyint 8125) })
    false .nil none none

/-- The same `port` option with `required = false`. -/
def portOptional : SchemaOption :=
  .mk "port" "The port to use." (some false)
    (some { type := "integer", items := none, exampleKey := some (.pyint 8125) })
    false .nil none none

/-- A `multiple` section with an empty (but present) `options` list, used to
exhibit the actual indent of the empty-list placeholder line. -/
def emptyMultipleSection : SchemaOption :=
  .mk "instances" "Every instance." none none true .nil (some true) none

/-- A `multiple` section whose first (and only) child is optional, used to
exhibit the actual text of the standalone list-item marker line. -/
def optionalFirstSection : SchemaOption :=
  .mk "instances" "Every instance." none none true (.cons portOptional .nil) (some true) none

/-- A `multiple` section whose first child is required. -/
def requiredFirstSection : SchemaOption :=
  .mk "instances" "Every instance." none none true (.cons portRequired .nil) (some true) none

/-- A `multiple` section whose first child is itself a section and therefore
carries no `required` key. -/
def sectionFirstSection : SchemaOption :=
  .mk "instances" "Every instance." none none true
    (.cons (.mk "logs" "Log section." none none false .nil none none) .nil) (some true) none

end ConcreteInputs


section SanityExamples

example : splitlines "a\nb\n" = ["a", "b"] := by decide
example : splitlines "a\n\nb" = ["a", "", "b"] := by decide
example : splitlines "" = [] := by decide
example : splitlines "\n" = [""] := by decide
example : splitlines "abc" = ["abc"] := by decide

example : construct_yaml (.pydict (.cons "port" (.pyint 8125) .nil)) = "port: 8125\n" := by decide
example : construct_yaml (.pylist (.cons (.pydict (.cons "port" (.pyint 8125) .nil)) .nil)) =
    "- port: 8125\n" := by decide
example : construct_yaml (.pydict (.cons "a" (.pylist (.cons (.pyint 1) (.cons (.pyint 2) .nil))) .nil)) =
    "a:\n- 1\n- 2\n" := by decide
example : construct_yaml (.pydict (.cons "a" (.pydict (.cons "b" (.pyint 1) .nil)) .nil)) =
    "a:\n  b: 1\n" := by decide
example : construct_yaml (.pydict (.cons "a" (.pydict .nil) .nil)) = "a: \x7b\x7d\n" := by decide

example :
    write_option portRequired OptionWriter.empty "" false =
      some { contents := "## port - integer - required\n## The port to use.\n#\nport: 8125\n",
             errors := [] } := by decide

example :
    write_option portOptional OptionWriter.empty "" false =
      some { contents :=
        "## port - integer - optional - default: 8125\n## The port to use.\n#\n# port: 8125\n",
             errors := [] } := by decide

example :
    write_option emptyMultipleSection OptionWriter.empty "" false =
      some { contents := "## Every instance.\n#\ninstances:\n\n  - \x7b\x7d\n", errors := [] } := by
  decide

example :
    write_option optionalFirstSection OptionWriter.empty "" false =
      some { contents :=
        "## Every instance.\n#\ninstances:\n\n  -\n" ++
        "    ## port - integer - optional - default: 8125\n    ## The port to use.\n    #\n" ++
        "    # port: 8125\n",
             errors := [] } := by decide

example :
    write_option requiredFirstSection OptionWriter.empty "" false =
      some { contents :=
        "## Every instance.\n#\ninstances:\n\n" ++
        "    ## port - integer - required\n    ## The port to use.\n    #\n" ++
        "  - port: 8125\n",
             errors := [] } := by decide

example : write_option sectionFirstSection OptionWriter.empty "" false = none := by decide

end SanityExamples

@[simp]
theorem OptionWriter.contents_write (w : OptionWriter) (s : String) :
    (w.write s).contents = w.contents ++ s := rfl

@[simp]
theorem OptionWriter.errors_write (w : OptionWriter) (s : String) :
    (w.write s).errors = w.errors := rfl

@[simp]
theorem OptionWriter.contents_new_error (w : OptionWriter) (s : String) :
    (w.new_error s).contents = w.contents := rfl

@[simp]
theorem OptionWriter.errors_new_error (w : OptionWriter) (s : String) :
    (w.new_error s).errors = w.errors ++ [s] := rfl

@[simp]
theorem OptionWriter.write_write (w : OptionWriter) (a b : String) :
    (w.write a).write b = w.write (a ++ b) := by
  simp [OptionWriter.write, String.append_assoc]

theorem OptionWriter.write_eq (w : OptionWriter) (s : String) :
    w.write s = { contents := w.contents ++ s, errors := w.errors } := rfl

theorem OptionWriter.eta (w : OptionWriter) :
    ({ contents := w.contents, errors := w.errors } : OptionWriter) = w := rfl

@[simp]
theorem OptionWriter.write_empty (w : OptionWriter) : w.write "" = w := by
  simp [OptionWriter.write]

@[simp]
theorem strJoin_nil : strJoin [] = "" := rfl

@[simp]
theorem strJoin_cons (s : String) (rest : List String) :
    strJoin (s :: rest) = s ++ strJoin rest := rfl

/-- A fold that only appends text appends the joined text. -/
theorem foldl_write_join (g : String → String) (lines : List String) (w : OptionWriter) :
    lines.foldl (fun w l => w.write (g l)) w = w.write (strJoin (lines.map g)) := by
  induction lines generalizing w with
  | nil => simp
  | cons l ls ih => simp [ih, String.append_assoc]

/-- `foldl_write_join` with the writer states in record form. -/
theorem foldl_write_join_mk (g : String → String) (lines : List String) (w : OptionWriter) :
    lines.foldl
        (fun w l => ({ contents := w.contents ++ g l, errors := w.errors } : OptionWriter)) w =
      w.write (strJoin (lines.map g)) := by
  have h : ∀ (w : OptionWriter) (l : String),
      ({ contents := w.contents ++ g l, errors := w.errors } : OptionWriter) = w.write (g l) :=
    fun _ _ => rfl
  simp only [h]
  exact foldl_write_join g lines w

@[simp]
theorem description_text_nil (indent : String) : description_text indent [] = "" := rfl

@[simp]
theorem description_text_cons (indent l : String) (ls : List String) :
    description_text indent (l :: ls) =
      ((if l ≠ "" then indent ++ "## " ++ l else indent ++ "##") ++ "\n") ++
        description_text indent ls := rfl

@[simp]
theorem description_errors_nil (indent kind option_name : String) :
    description_errors indent kind option_name [] = [] := rfl

@[simp]
theorem description_errors_cons (indent kind option_name l : String) (ls : List String) :
    description_errors indent kind option_name (l :: ls) =
      (if l ≠ "" ∧ (indent ++ "## " ++ l).length > DESCRIPTION_LINE_LENGTH_LIMIT then
        [diagMsg kind option_name
          ((indent ++ "## " ++ l).length - DESCRIPTION_LINE_LENGTH_LIMIT)]
      else []) ++ description_errors indent kind option_name ls := by
  simp only [description_errors]
  rw [List.filterMap_cons]
  split_ifs with h <;> simp

/-- Closed form of one description-loop iteration. -/
theorem format_description_line_eq (check : Bool) (indent kind option_name line : String)
    (writer : OptionWriter) :
    format_description_line check indent kind option_name line writer =
      { contents := writer.contents ++ description_text indent [line],
        errors := writer.errors ++
          (if check then description_errors indent kind option_name [line] else []) } := by
  unfold format_description_line
  simp only [OptionWriter.write, OptionWriter.new_error, diagMsg, description_text_cons,
    description_text_nil, description_errors_cons, description_errors_nil, List.append_nil]
  split_ifs <;> simp_all [String.append_assoc] <;> omega

/-- Closed form of the whole description loop: it appends
`description_text` to the buffer and, when the length check is on,
`description_errors` to the diagnostics. -/
theorem write_description_eq (check : Bool) (indent kind option_name : String)
    (lines : List String) (writer : OptionWriter) :
    write_description check indent kind option_name lines writer =
      { contents := writer.contents ++ description_text indent lines,
        errors := writer.errors ++
          (if check then description_errors indent kind option_name lines else []) } := by
  induction lines generalizing writer with
  | nil => simp [write_description]
  | cons l ls ih =>
    simp only [write_description, List.foldl_cons] at ih ⊢
    rw [format_description_line_eq, ih]
    cases check <;> simp [String.append_assoc, List.append_assoc]

/-- Closed form of the value-option branch of `write_option`: it always
succeeds (once the type string resolved), appends `value_option_text`, and
records exactly the description-loop diagnostics. -/
theorem value_option_shape (check : Bool) (nm d : String) (req : Bool) (v : ValueSpec)
    (ho : Bool) (os : SchemaOptions) (m : Option Bool) (e : Option PyValue)
    (w : OptionWriter) (ind : String) (sl : Bool) (ts : String)
    (hts : value_type_string v = some ts) :
    write_option_aux check (.mk nm d (some req) (some v) ho os m e) w ind sl =
      some { contents := w.contents ++ value_option_text ind nm ts d req v.exampleKey sl,
             errors := w.errors ++
               (if check then description_errors ind "option" nm (splitlines d) else []) } := by
  unfold write_option_aux
  dsimp only
  rw [hts]
  dsimp only
  rw [write_description_eq]
  unfold value_option_text header_line header_default_suffix example_block
  cases req <;> cases sl <;>
    rcases v.exampleKey with _ | ⟨b | n | r | s | xs | xs⟩ <;>
    simp [OptionWriter.write, String.append_assoc, strJoin] <;>
    rw [foldl_write_join_mk] <;>
    simp [OptionWriter.write, String.append_assoc] <;>
    try (split_ifs <;> simp [String.append_assoc])

/-- Dropping the last two characters of an indent extended by one four-space
nesting step leaves the original indent plus two spaces — half a step. -/
theorem dropLast2_step (s : String) : dropLast2 (s ++ "    ") = s ++ "  " := by
  have h1 : (s ++ "    ").data = ((s.data ++ [' ', ' ']) ++ [' ']) ++ [' '] := by
    have h : "    ".data = [' ', ' ', ' ', ' '] := rfl
    simp [String.data_append, h]
  unfold dropLast2
  rw [h1, List.dropLast_concat, List.dropLast_concat]
  cases s with
  | mk data => rfl

/-- Closed form of the section branch for a node without an `options` key:
description block, `#` separator, then the fully commented-out serialized
example. -/
theorem section_plain_shape (check : Bool) (nm d : String) (r? : Option Bool)
    (os : SchemaOptions) (m? : Option Bool) (e? : Option PyValue)
    (w : OptionWriter) (ind : String) (sl : Bool) :
    write_option_aux check (.mk nm d r? none false os m? e?) w ind sl =
      some { contents := w.contents ++ description_text ind (splitlines d) ++ ind ++ "#\n" ++
               example_block ind false
                 (construct_yaml (.pydict (.cons nm (section_fallback_example m? e?) .nil))),
             errors := w.errors ++
               (if check then description_errors ind "section" nm (splitlines d) else []) } := by
  unfold write_option_aux
  dsimp only
  rw [write_description_eq]
  unfold example_block section_fallback_example
  simp [OptionWriter.write, String.append_assoc]
  rw [foldl_write_join_mk]
  simp [OptionWriter.write, String.append_assoc]

/-- Closed form of the section branch for a node with an `options` key:
description block, `#` separator, the `name:` line, then either the child
loop (at one four-space step deeper), the empty-list placeholder (for an
empty `multiple` section), or nothing. -/
theorem section_options_shape (check : Bool) (nm d : String) (r? : Option Bool)
    (os : SchemaOptions) (mult : Bool) (e? : Option PyValue)
    (w : OptionWriter) (ind : String) (sl : Bool) :
    write_option_aux check (.mk nm d r? none true os (some mult) e?) w ind sl =
      (let w1 : OptionWriter :=
        { contents := w.contents ++ description_text ind (splitlines d) ++ ind ++ "#\n" ++
            ind ++ nm ++ ":\n",
          errors := w.errors ++
            (if check then description_errors ind "section" nm (splitlines d) else []) }
       match os with
       | .nil =>
         if mult then some (w1.write ("\n" ++ dropLast2 (ind ++ "    ") ++ "- \x7b\x7d\n"))
         else some w1
       | .cons o osr => write_options_loop check (.cons o osr) w1 (ind ++ "    ") mult true) := by
  unfold write_option_aux
  dsimp only
  rw [write_description_eq]
  cases os <;> cases mult <;> simp [OptionWriter.write, String.append_assoc]

/-- One step of the child loop: the blank line, the first-of-multiple
dispatch on the child's `required` key, then the rest of the loop. -/
theorem write_options_loop_cons (check : Bool) (opt : SchemaOption) (rest : SchemaOptions)
    (w : OptionWriter) (ni : String) (mult first : Bool) :
    write_options_loop check (.cons opt rest) w ni mult first =
      ((if first ∧ mult then
          match opt.required with
          | none => none
          | some r =>
            if r then write_option_aux check opt (w.write "\n") ni true
            else write_option_aux check opt ((w.write "\n").write (dropLast2 ni ++ "-\n")) ni false
        else write_option_aux check opt (w.write "\n") ni false).bind
        fun w2 => write_options_loop check rest w2 ni mult false) := by
  rw [write_options_loop]
  dsimp only
  split_ifs with hfm
  · rcases hr : opt.required with _ | r
    · rfl
    · cases r
      · simp only [Bool.false_eq_true, if_false]
        rcases hW : write_option_aux check opt ((w.write "\n").write (dropLast2 ni ++ "-\n"))
            ni false with _ | w2 <;> rfl
      · simp only [if_true]
        rcases hW : write_option_aux check opt (w.write "\n") ni true with _ | w2 <;> rfl
  · rcases hW : write_option_aux check opt (w.write "\n") ni false with _ | w2 <;> rfl

/-- A value option whose `required` key is missing fails (raising lookup). -/
theorem value_no_required (check : Bool) (nm d : String) (v : ValueSpec) (ho : Bool)
    (os : SchemaOptions) (m? : Option Bool) (e? : Option PyValue)
    (w : OptionWriter) (ind : String) (sl : Bool) :
    write_option_aux check (.mk nm d none (some v) ho os m? e?) w ind sl = none := rfl

/-- A value option whose type string cannot be resolved fails. -/
theorem value_no_ts (check : Bool) (nm d : String) (req : Bool) (v : ValueSpec) (ho : Bool)
    (os : SchemaOptions) (m? : Option Bool) (e? : Option PyValue)
    (w : OptionWriter) (ind : String) (sl : Bool) (h : value_type_string v = none) :
    write_option_aux check (.mk nm d (some req) (some v) ho os m? e?) w ind sl = none := by
  unfold write_option_aux
  dsimp only
  rw [h]

/-- A section with an `options` key but no `multiple` key fails (raising
lookup of `option['multiple']`). -/
theorem section_no_multiple (check : Bool) (nm d : String) (r? : Option Bool)
    (os : SchemaOptions) (e? : Option PyValue) (w : OptionWriter) (ind : String) (sl : Bool) :
    write_option_aux check (.mk nm d r? none true os none e?) w ind sl = none := rfl

/-- Every description-loop diagnostic is a `diagMsg` for its kind and owner
with a positive overflow count. -/
theorem description_errors_mem (ind kind nm : String) (lines : List String) :
    ∀ msg ∈ description_errors ind kind nm lines, ∃ k, 1 ≤ k ∧ msg = diagMsg kind nm k := by
  intro msg hmsg
  unfold description_errors at hmsg
  rw [List.mem_filterMap] at hmsg
  obtain ⟨l, -, hl⟩ := hmsg
  by_cases hcond : l ≠ "" ∧ (ind ++ "## " ++ l).length > DESCRIPTION_LINE_LENGTH_LIMIT
  · rw [if_pos hcond] at hl
    obtain ⟨-, hlen⟩ := hcond
    obtain rfl := Option.some.inj hl
    refine ⟨(ind ++ "## " ++ l).length - DESCRIPTION_LINE_LENGTH_LIMIT, ?_, rfl⟩
    unfold DESCRIPTION_LINE_LENGTH_LIMIT at hlen ⊢
    omega
  · rw [if_neg hcond] at hl
    cases hl

/-- Every diagnostic present after a render step either was already present
or has the fixed diagnostic shape (`diag_shape`), simultaneously for
`write_option_aux` and for the child loop, by strong induction on size. -/
theorem errors_shape_strong :
    ∀ N : Nat,
      (∀ o : SchemaOption, sizeOf o ≤ N → ∀ w ind sl w',
        write_option_aux true o w ind sl = some w' →
        ∀ msg ∈ w'.errors, msg ∈ w.errors ∨ diag_shape msg) ∧
      (∀ os : SchemaOptions, sizeOf os ≤ N → ∀ w ni mult first w',
        write_options_loop true os w ni mult first = some w' →
        ∀ msg ∈ w'.errors, msg ∈ w.errors ∨ diag_shape msg) := by
  intro N
  induction N using Nat.strong_induction_on with
  | _ N ih =>
    constructor
    · rintro ⟨nm, d, r?, v?, ho, os, m?, e?⟩ hsz w ind sl w' hw msg hmsg
      rcases v? with _ | v
      · -- section branch
        cases ho
        · rw [section_plain_shape] at hw
          obtain rfl := Option.some.inj hw
          simp only [if_true] at hmsg
          rcases List.mem_append.mp hmsg with h | h
          · exact Or.inl h
          · obtain ⟨k, hk, rfl⟩ := description_errors_mem ind "section" nm (splitlines d) msg h
            exact Or.inr ⟨"section", nm, k, Or.inr rfl, hk, rfl⟩
        · rcases m? with _ | mult
          · rw [section_no_multiple] at hw; cases hw
          · rw [section_options_shape] at hw
            dsimp only at hw
            rcases os with _ | ⟨o, osr⟩
            · -- nil options
              have hw' : w'.errors = w.errors ++ description_errors ind "section" nm (splitlines d) := by
                cases mult <;> simp at hw <;> rw [← hw] <;> simp
              rw [hw'] at hmsg
              rcases List.mem_append.mp hmsg with h | h
              · exact Or.inl h
              · obtain ⟨k, hk, rfl⟩ := description_errors_mem ind "section" nm (splitlines d) msg h
                exact Or.inr ⟨"section", nm, k, Or.inr rfl, hk, rfl⟩
            · -- cons: recurse into the loop
              have hlt : sizeOf (SchemaOptions.cons o osr) < N := by
                have : sizeOf (SchemaOptions.cons o osr) <
                    sizeOf (SchemaOption.mk nm d r? none true (SchemaOptions.cons o osr) (some mult) e?) := by
                  simp <;> omega
                omega
              have hq := ((ih _ hlt).2 (SchemaOptions.cons o osr) le_rfl _ _ _ _ _ hw msg hmsg)
              rcases hq with h | h
              · simp only [if_true, List.mem_append] at h
                rcases h with h | h
                · exact Or.inl h
                · obtain ⟨k, hk, rfl⟩ := description_errors_mem ind "section" nm (splitlines d) msg h
                  exact Or.inr ⟨"section", nm, k, Or.inr rfl, hk, rfl⟩
              · exact Or.inr h
      · -- value branch
        rcases r? with _ | req
        · rw [value_no_required] at hw; cases hw
        · rcases hts : value_type_string v with _ | ts
          · rw [value_no_ts _ _ _ _ _ _ _ _ _ _ _ _ hts] at hw; cases hw
          · rw [value_option_shape true nm d req v ho os m? e? w ind sl ts hts] at hw
            obtain rfl := Option.some.inj hw
            simp only [if_true] at hmsg
            rcases List.mem_append.mp hmsg with h | h
            · exact Or.inl h
            · obtain ⟨k, hk, rfl⟩ := description_errors_mem ind "option" nm (splitlines d) msg h
              exact Or.inr ⟨"option", nm, k, Or.inl rfl, hk, rfl⟩
    · rintro os hsz w ni mult first w' hw msg hmsg
      rcases os with _ | ⟨opt, rest⟩
      · rw [write_options_loop] at hw
        obtain rfl := Option.some.inj hw
        exact Or.inl hmsg
      · rw [write_options_loop_cons] at hw
        have hso : sizeOf opt < N := by
          have : sizeOf opt < sizeOf (SchemaOptions.cons opt rest) := by simp <;> omega
          omega
        have hsr : sizeOf rest < N := by
          have : sizeOf rest < sizeOf (SchemaOptions.cons opt rest) := by simp <;> omega
          omega
        rcases hstep : (if first = true ∧ mult = true then
            match opt.required with
            | none => none
            | some r =>
              if r = true then write_option_aux true opt (w.write "\n") ni true
              else write_option_aux true opt ((w.write "\n").write (dropLast2 ni ++ "-\n"))
                ni false
          else write_option_aux true opt (w.write "\n") ni false) with _ | w2
        · rw [hstep] at hw; cases hw
        · rw [hstep] at hw
          simp only [Option.some_bind] at hw
          -- every diagnostic of w2 is old or shaped
          have hw2 : ∀ m ∈ w2.errors, m ∈ w.errors ∨ diag_shape m := by
            intro m hm
            split_ifs at hstep with hfm
            · rcases hr : opt.required with _ | r
              · rw [hr] at hstep; cases hstep
              · rw [hr] at hstep
                dsimp only at hstep
                rcases r with _ | _
                · simp only [Bool.false_eq_true, if_false] at hstep
                  have := (ih _ hso).1 opt le_rfl _ _ _ _ hstep m hm
                  simpa using this
                · simp only [if_true] at hstep
                  have := (ih _ hso).1 opt le_rfl _ _ _ _ hstep m hm
                  simpa using this
            · have := (ih _ hso).1 opt le_rfl _ _ _ _ hstep m hm
              simpa using this
          have := (ih _ hsr).2 rest le_rfl _ _ _ _ _ hw msg hmsg
          rcases this with h | h
          · exact hw2 msg h
          · exact Or.inr h

/-- C2: at top level (indent `""`), a formatted description line of exactly
120 characters produces no diagnostic, 121 characters produce exactly one
diagnostic reporting `1 character` (singular), 123 characters report
`3 characters`; this holds with kind `"option"` for value options and kind
`"section"` for section options; and every diagnostic a render ever records
has the fixed `diag_shape` form. -/
theorem claim_C2_description_diagnostics :
    (∀ (nm d : String) (req : Bool) (v : ValueSpec) (ho : Bool) (os : SchemaOptions)
        (m : Option Bool) (e : Option PyValue) (w : OptionWriter) (sl : Bool) (ts : String),
      value_type_string v = some ts → splitlines d = [d] → d ≠ "" →
      ∀ w', write_option (.mk nm d (some req) (some v) ho os m e) w "" sl = some w' →
        ((("" ++ "## " ++ d).length = 120 → w'.errors = w.errors) ∧
         (("" ++ "## " ++ d).length = 121 →
            w'.errors = w.errors ++ [diagMsg "option" nm 1]) ∧
         (("" ++ "## " ++ d).length = 123 →
            w'.errors = w.errors ++ [diagMsg "option" nm 3]))) ∧
    (∀ (nm d : String) (r? : Option Bool) (os : SchemaOptions) (m : Option Bool)
        (e : Option PyValue) (w : OptionWriter) (sl : Bool),
      splitlines d = [d] → d ≠ "" →
      ∀ w', write_option (.mk nm d r? none false os m e) w "" sl = some w' →
        ((("" ++ "## " ++ d).length = 120 → w'.errors = w.errors) ∧
         (("" ++ "## " ++ d).length = 121 →
            w'.errors = w.errors ++ [diagMsg "section" nm 1]) ∧
         (("" ++ "## " ++ d).length = 123 →
            w'.errors = w.errors ++ [diagMsg "section" nm 3]))) ∧
    (∀ (o : SchemaOption) (w : OptionWriter) (ind : String) (sl : Bool) (w' : OptionWriter),
      write_option o w ind sl = some w' →
      ∀ msg ∈ w'.errors, msg ∈ w.errors ∨ diag_shape msg) := by
  have key : ∀ (kind nm d : String) (w : OptionWriter),
      d ≠ "" →
      ((("" ++ "## " ++ d).length = 120 →
          w.errors ++ description_errors "" kind nm [d] = w.errors) ∧
       (("" ++ "## " ++ d).length = 121 →
          w.errors ++ description_errors "" kind nm [d] = w.errors ++ [diagMsg kind nm 1]) ∧
       (("" ++ "## " ++ d).length = 123 →
          w.errors ++ description_errors "" kind nm [d] = w.errors ++ [diagMsg kind nm 3])) := by
    intro kind nm d w hd0
    refine ⟨fun hL => ?_, fun hL => ?_, fun hL => ?_⟩
    · rw [description_errors_cons, description_errors_nil, List.append_nil, if_neg]
      · simp
      · rintro ⟨-, hgt⟩
        unfold DESCRIPTION_LINE_LENGTH_LIMIT at hgt
        omega
    · rw [description_errors_cons, description_errors_nil, List.append_nil,
        if_pos ⟨hd0, by unfold DESCRIPTION_LINE_LENGTH_LIMIT; omega⟩]
      have h1 : ("" ++ "## " ++ d).length - DESCRIPTION_LINE_LENGTH_LIMIT = 1 := by
        unfold DESCRIPTION_LINE_LENGTH_LIMIT
        omega
      rw [h1]
    · rw [description_errors_cons, description_errors_nil, List.append_nil,
        if_pos ⟨hd0, by unfold DESCRIPTION_LINE_LENGTH_LIMIT; omega⟩]
      have h3 : ("" ++ "## " ++ d).length - DESCRIPTION_LINE_LENGTH_LIMIT = 3 := by
        unfold DESCRIPTION_LINE_LENGTH_LIMIT
        omega
      rw [h3]
  refine ⟨?_, ?_, ?_⟩
  · intro nm d req v ho os m e w sl ts hts hd hd0 w' hw
    rw [write_option, value_option_shape true nm d req v ho os m e w "" sl ts hts] at hw
    obtain rfl := Option.some.inj hw
    dsimp only
    rw [if_pos rfl, hd]
    exact key "option" nm d w hd0
  · intro nm d r? os m e w sl hd hd0 w' hw
    rw [write_option, section_plain_shape true nm d r? os m e w "" sl] at hw
    obtain rfl := Option.some.inj hw
    dsimp only
    rw [if_pos rfl, hd]
    exact key "section" nm d w hd0
  · intro o w ind sl w' hw
    exact (errors_shape_strong (sizeOf o)).1 o le_rfl w ind sl w' hw

/-- C2 witness: the theorem applied at concrete top-level options whose
single description line formats to 120, 121 and 123 characters. -/
theorem claim_C2_description_diagnostics_witness :
    (∃ w', write_option (.mk "tok" c2long117 (some true)
        (some { type := "integer", items := none, exampleKey := some (.pyint 1) })
        false .nil none none) OptionWriter.empty "" false = some w' ∧
      w'.errors = OptionWriter.empty.errors) ∧
    (∃ w', write_option (.mk "tok" c2long118 (some true)
        (some { type := "integer", items := none, exampleKey := some (.pyint 1) })
        false .nil none none) OptionWriter.empty "" false = some w' ∧
      w'.errors = OptionWriter.empty.errors ++ [diagMsg "option" "tok" 1]) ∧
    (∃ w', write_option (.mk "tok" c2long120 none none false .nil none none)
        OptionWriter.empty "" false = some w' ∧
      w'.errors = OptionWriter.empty.errors ++ [diagMsg "section" "tok" 3]) := by
  refine ⟨?_, ?_, ?_⟩
  · have hs : (write_option (.mk "tok" c2long117 (some true)
        (some { type := "integer", items := none, exampleKey := some (.pyint 1) })
        false .nil none none) OptionWriter.empty "" false).isSome := by decide
    obtain ⟨w', hw⟩ := Option.isSome_iff_exists.mp hs
    exact ⟨w', hw, (claim_C2_description_diagnostics.1 "tok" c2long117 true _ false .nil
      none none OptionWriter.empty false "integer" (by decide) (by decide) (by decide)
      w' hw).1 (by decide)⟩
  · have hs : (write_option (.mk "tok" c2long118 (some true)
        (some { type := "integer", items := none, exampleKey := some (.pyint 1) })
        false .nil none none) OptionWriter.empty "" false).isSome := by decide
    obtain ⟨w', hw⟩ := Option.isSome_iff_exists.mp hs
    exact ⟨w', hw, (claim_C2_description_diagnostics.1 "tok" c2long118 true _ false .nil
      none none OptionWriter.empty false "integer" (by decide) (by decide) (by decide)
      w' hw).2.1 (by decide)⟩
  · have hs : (write_option (.mk "tok" c2long120 none none false .nil none none)
        OptionWriter.empty "" false).isSome := by decide
    obtain ⟨w', hw⟩ := Option.isSome_iff_exists.mp hs
    exact ⟨w', hw, (claim_C2_description_diagnostics.2.1 "tok" c2long120 none .nil
      none none OptionWriter.empty false (by decide) (by decide)
      w' hw).2.2 (by decide)⟩

/-- The length check influences neither the rendered text nor
success/failure: with equal input buffers, the checked and unchecked
renderers succeed together, produce identical contents, and the unchecked
renderer records no diagnostics. Proved simultaneously for
`write_option_aux` and the child loop by strong induction on size. -/
theorem check_irrelevant_strong :
    ∀ N : Nat,
      (∀ o : SchemaOption, sizeOf o ≤ N → ∀ (wc wu : OptionWriter) (ind : String) (sl : Bool),
        wc.contents = wu.contents →
        ((write_option_aux true o wc ind sl).isSome ↔
          (write_option_aux false o wu ind sl).isSome) ∧
        (∀ wa wb, write_option_aux true o wc ind sl = some wa →
          write_option_aux false o wu ind sl = some wb →
          wa.contents = wb.contents ∧ wb.errors = wu.errors)) ∧
      (∀ os : SchemaOptions, sizeOf os ≤ N →
        ∀ (wc wu : OptionWriter) (ni : String) (mult first : Bool),
        wc.contents = wu.contents →
        ((write_options_loop true os wc ni mult first).isSome ↔
          (write_options_loop false os wu ni mult first).isSome) ∧
        (∀ wa wb, write_options_loop true os wc ni mult first = some wa →
          write_options_loop false os wu ni mult first = some wb →
          wa.contents = wb.contents ∧ wb.errors = wu.errors)) := by
  intro N
  induction N using Nat.strong_induction_on with
  | _ N ih =>
    constructor
    · rintro ⟨nm, d, r?, v?, ho, os, m?, e?⟩ hsz wc wu ind sl hc
      rcases v? with _ | v
      · -- section branch
        cases ho
        · rw [section_plain_shape, section_plain_shape]
          refine ⟨by simp, ?_⟩
          rintro wa wb h1 h2
          obtain rfl := Option.some.inj h1
          obtain rfl := Option.some.inj h2
          simp [hc]
        · rcases m? with _ | mult
          · rw [section_no_multiple, section_no_multiple]
            exact ⟨by simp, by rintro wa wb h1 -; cases h1⟩
          · rw [section_options_shape, section_options_shape]
            dsimp only
            rcases os with _ | ⟨o, osr⟩
            · cases mult <;>
                refine ⟨by simp, ?_⟩ <;>
                rintro wa wb h1 h2 <;>
                obtain rfl := Option.some.inj h1 <;>
                obtain rfl := Option.some.inj h2 <;>
                simp [hc, OptionWriter.write]
            · have hlt : sizeOf (SchemaOptions.cons o osr) < N := by
                have : sizeOf (SchemaOptions.cons o osr) <
                    sizeOf (SchemaOption.mk nm d r? none true (SchemaOptions.cons o osr)
                      (some mult) e?) := by
                  simp <;> omega
                omega
              have hq := (ih _ hlt).2 (SchemaOptions.cons o osr) le_rfl
                { contents := wc.contents ++ description_text ind (splitlines d) ++ ind ++
                    "#\n" ++ ind ++ nm ++ ":\n",
                  errors := wc.errors ++
                    (if true then description_errors ind "section" nm (splitlines d) else []) }
                { contents := wu.contents ++ description_text ind (splitlines d) ++ ind ++
                    "#\n" ++ ind ++ nm ++ ":\n",
                  errors := wu.errors ++
                    (if false then description_errors ind "section" nm (splitlines d) else []) }
                (ind ++ "    ") mult true (by simp [hc])
              refine ⟨hq.1, ?_⟩
              intro wa wb h1 h2
              have := hq.2 wa wb h1 h2
              simpa using this
      · -- value branch
        rcases r? with _ | req
        · rw [value_no_required, value_no_required]
          exact ⟨by simp, by rintro wa wb h1 -; cases h1⟩
        · rcases hts : value_type_string v with _ | ts
          · rw [value_no_ts _ _ _ _ _ _ _ _ _ _ _ _ hts,
              value_no_ts _ _ _ _ _ _ _ _ _ _ _ _ hts]
            exact ⟨by simp, by rintro wa wb h1 -; cases h1⟩
          · rw [value_option_shape true nm d req v _ _ _ _ _ _ _ ts hts,
              value_option_shape false nm d req v _ _ _ _ _ _ _ ts hts]
            refine ⟨by simp, ?_⟩
            rintro wa wb h1 h2
            obtain rfl := Option.some.inj h1
            obtain rfl := Option.some.inj h2
            simp [hc]
    · rintro os hsz wc wu ni mult first hc
      rcases os with _ | ⟨opt, rest⟩
      · rw [write_options_loop, write_options_loop]
        refine ⟨by simp, ?_⟩
        rintro wa wb h1 h2
        obtain rfl := Option.some.inj h1
        obtain rfl := Option.some.inj h2
        exact ⟨hc, rfl⟩
      · rw [write_options_loop_cons, write_options_loop_cons]
        have hso : sizeOf opt < N := by
          have : sizeOf opt < sizeOf (SchemaOptions.cons opt rest) := by simp <;> omega
          omega
        have hsr : sizeOf rest < N := by
          have : sizeOf rest < sizeOf (SchemaOptions.cons opt rest) := by simp <;> omega
          omega
        have main : ∀ (WC WU : OptionWriter) (SL : Bool), WC.contents = WU.contents →
            WU.errors = wu.errors →
            (((write_option_aux true opt WC ni SL).bind
                fun w2 => write_options_loop true rest w2 ni mult false).isSome ↔
              ((write_option_aux false opt WU ni SL).bind
                fun w2 => write_options_loop false rest w2 ni mult false).isSome) ∧
            (∀ wa wb, ((write_option_aux true opt WC ni SL).bind
                fun w2 => write_options_loop true rest w2 ni mult false) = some wa →
              ((write_option_aux false opt WU ni SL).bind
                fun w2 => write_options_loop false rest w2 ni mult false) = some wb →
              wa.contents = wb.contents ∧ wb.errors = wu.errors) := by
          intro WC WU SL hCU hUE
          have hopt := (ih _ hso).1 opt le_rfl WC WU ni SL hCU
          rcases hC : write_option_aux true opt WC ni SL with _ | wa2
          · rcases hU : write_option_aux false opt WU ni SL with _ | wb2
            · simp
            · exfalso
              have hiff := hopt.1
              rw [hC, hU] at hiff
              simp at hiff
          · rcases hU : write_option_aux false opt WU ni SL with _ | wb2
            · exfalso
              have hiff := hopt.1
              rw [hC, hU] at hiff
              simp at hiff
            · have hrel2 := hopt.2 wa2 wb2 hC hU
              have hrest := (ih _ hsr).2 rest le_rfl wa2 wb2 ni mult false hrel2.1
              simp only [Option.some_bind]
              refine ⟨hrest.1, ?_⟩
              intro wa wb h1 h2
              have hr2 := hrest.2 wa wb h1 h2
              exact ⟨hr2.1, by rw [hr2.2, hrel2.2, hUE]⟩
        split_ifs with hfm
        · rcases hr : opt.required with _ | r
          · refine ⟨by simp, ?_⟩
            rintro wa wb h1 -
            cases h1
          · cases r
            · simp only [Bool.false_eq_true, if_false]
              exact main ((wc.write "\n").write (dropLast2 ni ++ "-\n"))
                ((wu.write "\n").write (dropLast2 ni ++ "-\n")) false (by simp [hc]) (by simp)
            · simp only [if_true]
              exact main (wc.write "\n") (wu.write "\n") true (by simp [hc]) (by simp)
        · exact main (wc.write "\n") (wu.write "\n") false (by simp [hc]) (by simp)

/-- The per-file option loop preserves the checked/unchecked relation. -/
theorem render_options_rel :
    ∀ (opts : List SchemaOption) (wc wu : OptionWriter), wc.contents = wu.contents →
      ((render_options opts wc).isSome ↔ (render_options_unchecked opts wu).isSome) ∧
      (∀ wa wb, render_options opts wc = some wa →
        render_options_unchecked opts wu = some wb →
        wa.contents = wb.contents ∧ wb.errors = wu.errors) := by
  intro opts
  induction opts with
  | nil =>
    intro wc wu hc
    refine ⟨by simp [render_options, render_options_unchecked], ?_⟩
    rintro wa wb h1 h2
    obtain rfl := Option.some.inj h1
    obtain rfl := Option.some.inj h2
    exact ⟨hc, rfl⟩
  | cons o rest ih =>
    intro wc wu hc
    have hopt := (check_irrelevant_strong (sizeOf o)).1 o le_rfl wc wu "" false hc
    rcases rest with _ | ⟨o2, rest2⟩
    · -- single option: the loop is exactly write_option
      rw [show render_options [o] wc = write_option o wc "" false from rfl,
        show render_options_unchecked [o] wu = write_option_unchecked o wu "" false from rfl]
      exact ⟨hopt.1, fun wa wb h1 h2 => hopt.2 wa wb h1 h2⟩
    · rw [show render_options (o :: o2 :: rest2) wc =
          (match write_option o wc "" false with
           | none => none
           | some w2 => render_options (o2 :: rest2) (w2.write "\n")) from rfl,
        show render_options_unchecked (o :: o2 :: rest2) wu =
          (match write_option_unchecked o wu "" false with
           | none => none
           | some w2 => render_options_unchecked (o2 :: rest2) (w2.write "\n")) from rfl]
      rcases hC : write_option o wc "" false with _ | wa2
      · rcases hU : write_option_unchecked o wu "" false with _ | wb2
        · simp
        · exfalso
          have hiff := hopt.1
          rw [show write_option_aux true o wc "" false = none from hC,
            show write_option_aux false o wu "" false = some wb2 from hU] at hiff
          simp at hiff
      · rcases hU : write_option_unchecked o wu "" false with _ | wb2
        · exfalso
          have hiff := hopt.1
          rw [show write_option_aux true o wc "" false = some wa2 from hC,
            show write_option_aux false o wu "" false = none from hU] at hiff
          simp at hiff
        · have hrel2 := hopt.2 wa2 wb2 hC hU
          have hrest := ih (wa2.write "\n") (wb2.write "\n") (by simp [hrel2.1])
          refine ⟨hrest.1, ?_⟩
          intro wa wb h1 h2
          have hr2 := hrest.2 wa wb h1 h2
          exact ⟨hr2.1, by rw [hr2.2]; simp [hrel2.2]⟩

/-- C8: a description line exceeding the length limit never raises and never
changes the rendered text: the checked renderer and the renderer with no
length check succeed together and produce identical contents, both per
option and per file, with the violation surfaced only in the diagnostics
list (the unchecked renderer's diagnostics stay empty). -/
theorem claim_C8_diagnostics_nonintrusive :
    (∀ (o : SchemaOption) (w : OptionWriter) (ind : String) (sl : Bool),
      ((write_option o w ind sl).isSome ↔ (write_option_unchecked o w ind sl).isSome) ∧
      (∀ wa wb, write_option o w ind sl = some wa →
        write_option_unchecked o w ind sl = some wb →
        wa.contents = wb.contents ∧ wb.errors = w.errors)) ∧
    (∀ f : SpecFile,
      ((render_file f).isSome ↔ (render_file_unchecked f).isSome) ∧
      (∀ ca ea cb eb, render_file f = some (ca, ea) →
        render_file_unchecked f = some (cb, eb) → ca = cb ∧ eb = [])) := by
  constructor
  · intro o w ind sl
    have h := (check_irrelevant_strong (sizeOf o)).1 o le_rfl w w ind sl rfl
    exact ⟨h.1, fun wa wb h1 h2 => h.2 wa wb h1 h2⟩
  · intro f
    have h := render_options_rel f.options OptionWriter.empty OptionWriter.empty rfl
    constructor
    · unfold render_file render_file_unchecked
      rcases hC : render_options f.options OptionWriter.empty with _ | wa <;>
        rcases hU : render_options_unchecked f.options OptionWriter.empty with _ | wb <;>
        simp_all
    · intro ca ea cb eb h1 h2
      unfold render_file at h1
      unfold render_file_unchecked at h2
      rcases hC : render_options f.options OptionWriter.empty with _ | wa
      · rw [hC] at h1; cases h1
      · rcases hU : render_options_unchecked f.options OptionWriter.empty with _ | wb
        · rw [hU] at h2; cases h2
        · rw [hC] at h1
          rw [hU] at h2
          simp only [Option.map_some'] at h1 h2
          have h1' := Option.some.inj h1
          have h2' := Option.some.inj h2
          have hca : wa.contents = ca := congrArg Prod.fst h1'
          have hcb : wb.contents = cb := congrArg Prod.fst h2'
          have heb : wb.errors = eb := congrArg Prod.snd h2'
          have hr := h.2 wa wb hC hU
          rw [← hca, ← hcb, ← heb]
          exact ⟨hr.1, hr.2⟩

/-- C8 witness: the theorem applied to a concrete option whose description
line exceeds the limit; the checked and unchecked renders agree on contents
and the unchecked render records nothing. -/
theorem claim_C8_diagnostics_nonintrusive_witness :
    ∃ wa wb,
      write_option (.mk "tok" c2long118 (some true)
        (some { type := "integer", items := none, exampleKey := some (.pyint 1) })
        false .nil none none) OptionWriter.empty "" false = some wa ∧
      write_option_unchecked (.mk "tok" c2long118 (some true)
        (some { type := "integer", items := none, exampleKey := some (.pyint 1) })
        false .nil none none) OptionWriter.empty "" false = some wb ∧
      wa.contents = wb.contents ∧ wb.errors = OptionWriter.empty.errors := by
  have hsC : (write_option (.mk "tok" c2long118 (some true)
      (some { type := "integer", items := none, exampleKey := some (.pyint 1) })
      false .nil none none) OptionWriter.empty "" false).isSome := by decide
  have hsU : (write_option_unchecked (.mk "tok" c2long118 (some true)
      (some { type := "integer", items := none, exampleKey := some (.pyint 1) })
      false .nil none none) OptionWriter.empty "" false).isSome := by decide
  obtain ⟨wa, hwa⟩ := Option.isSome_iff_exists.mp hsC
  obtain ⟨wb, hwb⟩ := Option.isSome_iff_exists.mp hsU
  obtain ⟨h1, h2⟩ := (claim_C8_diagnostics_nonintrusive.1 (.mk "tok" c2long118 (some true)
      (some { type := "integer", items := none, exampleKey := some (.pyint 1) })
      false .nil none none) OptionWriter.empty "" false).2 wa wb hwa hwb
  exact ⟨wa, wb, hwa, hwb, h1, h2⟩

/-- Unfolding equation for `filePairs` on a cons cell. -/
theorem filePairs_cons (f : SpecFile) (fs : List SpecFile) :
    filePairs (f :: fs) =
      (match render_file f with
       | some r => (f.example_name, r) :: filePairs fs
       | none => filePairs fs) := rfl

/-- `any` over an association list detects key membership. -/
theorem odInsert_any_iff (m : List (String × α)) (k : String) :
    m.any (fun p => p.1 = k) = true ↔ k ∈ m.map Prod.fst := by
  simp only [List.any_eq_true, List.mem_map, decide_eq_true_eq]

/-- Ordered-dict assignment keeps the key list when the key is present and
appends it otherwise. -/
theorem odInsert_keys (m : List (String × α)) (k : String) (v : α) :
    (odInsert m k v).map Prod.fst =
      if k ∈ m.map Prod.fst then m.map Prod.fst else m.map Prod.fst ++ [k] := by
  unfold odInsert
  by_cases h : k ∈ m.map Prod.fst
  · rw [if_pos ((odInsert_any_iff m k).mpr h), if_pos h, List.map_map]
    apply List.map_congr_left
    intro p hp
    dsimp only [Function.comp]
    split_ifs with hpk
    · simp [hpk]
    · rfl
  · rw [if_neg (fun hc => h ((odInsert_any_iff m k).mp hc)), if_neg h]
    simp

/-- Replacing the bindings of `k` makes the first `k`-binding `(k, v)`. -/
theorem find_replace_self (m : List (String × α)) (k : String) (v : α)
    (h : k ∈ m.map Prod.fst) :
    (m.map fun p => if p.1 = k then (k, v) else p).find? (fun p => p.1 = k) = some (k, v) := by
  induction m with
  | nil => simp at h
  | cons p ps ih =>
    by_cases hpk : p.1 = k
    · simp only [List.map_cons, if_pos hpk]
      rw [List.find?_cons_of_pos _ (by simp)]
    · have h' : k ∈ ps.map Prod.fst := by
        rw [List.map_cons] at h
        rcases List.mem_cons.mp h with h0 | h0
        · exact absurd h0.symm hpk
        · exact h0
      simp only [List.map_cons, if_neg hpk]
      rw [List.find?_cons_of_neg _ (by simp [hpk]), ih h']

/-- Replacing the bindings of `k` does not affect lookups of other keys. -/
theorem find_replace_ne (m : List (String × α)) (k : String) (v : α) (k' : String)
    (hne : k' ≠ k) :
    (m.map fun p => if p.1 = k then (k, v) else p).find? (fun p => p.1 = k') =
      m.find? (fun p => p.1 = k') := by
  induction m with
  | nil => rfl
  | cons p ps ih =>
    by_cases hpk : p.1 = k
    · simp only [List.map_cons, if_pos hpk]
      rw [List.find?_cons_of_neg _ (by simp only [decide_eq_true_eq]; exact fun hkk => hne hkk.symm),
        List.find?_cons_of_neg _ (by simp only [decide_eq_true_eq, hpk]; exact fun hkk => hne hkk.symm),
        ih]
    · simp only [List.map_cons, if_neg hpk]
      by_cases hpk' : p.1 = k'
      · rw [List.find?_cons_of_pos _ (by simp [hpk']), List.find?_cons_of_pos _ (by simp [hpk'])]
      · rw [List.find?_cons_of_neg _ (by simp [hpk']), List.find?_cons_of_neg _ (by simp [hpk']),
          ih]

/-- After an ordered-dict assignment the assigned key maps to the new value. -/
theorem assocFind_odInsert_self (m : List (String × α)) (k : String) (v : α) :
    assocFind (odInsert m k v) k = some v := by
  unfold odInsert assocFind
  by_cases h : k ∈ m.map Prod.fst
  · rw [if_pos ((odInsert_any_iff m k).mpr h), find_replace_self m k v h]
    rfl
  · rw [if_neg (fun hc => h ((odInsert_any_iff m k).mp hc)), List.find?_append]
    have hm : m.find? (fun p => p.1 = k) = none := by
      rw [List.find?_eq_none]
      intro p hp
      simp only [decide_eq_true_eq]
      intro hpk
      exact h (List.mem_map.mpr ⟨p, hp, hpk⟩)
    rw [hm]
    simp

/-- An ordered-dict assignment leaves other keys' bindings unchanged. -/
theorem assocFind_odInsert_ne (m : List (String × α)) (k : String) (v : α) (k' : String)
    (hne : k' ≠ k) :
    assocFind (odInsert m k v) k' = assocFind m k' := by
  unfold odInsert assocFind
  by_cases h : k ∈ m.map Prod.fst
  · rw [if_pos ((odInsert_any_iff m k).mpr h), find_replace_ne m k v k' hne]
  · rw [if_neg (fun hc => h ((odInsert_any_iff m k).mp hc)), List.find?_append]
    have hlast : List.find? (fun p => p.1 = k') [(k, v)] = none := by
      rw [List.find?_eq_none]
      intro p hp
      simp only [List.mem_singleton] at hp
      subst hp
      simp only [decide_eq_true_eq]
      exact fun hc => hne hc.symm
    rw [hlast]
    simp

/-- Membership survives first-occurrence deduplication. -/
theorem mem_dedupFirst (l : List String) (k : String) : k ∈ dedupFirst l ↔ k ∈ l := by
  induction l with
  | nil => simp [dedupFirst]
  | cons a l ih =>
    simp only [dedupFirst, List.mem_cons, List.mem_filter, ih, decide_eq_true_eq]
    by_cases hka : k = a
    · simp [hka]
    · simp [hka, ih]

/-- First-occurrence deduplication yields a duplicate-free list. -/
theorem nodup_dedupFirst (l : List String) : (dedupFirst l).Nodup := by
  induction l with
  | nil => simp [dedupFirst]
  | cons a l ih =>
    refine List.Nodup.cons ?_ (List.Nodup.filter _ ih)
    intro hmem
    have := List.mem_filter.mp hmem
    simp at this

/-- First-occurrence deduplication of a list extended by one element. -/
theorem dedupFirst_append_singleton (l : List String) (k : String) :
    dedupFirst (l ++ [k]) = if k ∈ l then dedupFirst l else dedupFirst l ++ [k] := by
  induction l with
  | nil => simp [dedupFirst]
  | cons a l ih =>
    rw [show (a :: l) ++ [k] = a :: (l ++ [k]) from rfl,
      show dedupFirst (a :: (l ++ [k])) =
        a :: (dedupFirst (l ++ [k])).filter (fun x => x ≠ a) from rfl, ih]
    by_cases hkl : k ∈ l
    · rw [if_pos hkl, if_pos (List.mem_cons.mpr (Or.inr hkl))]
      rfl
    · by_cases hka : k = a
      · rw [if_neg hkl, if_pos (List.mem_cons.mpr (Or.inl hka))]
        rw [List.filter_append]
        have hk1 : [k].filter (fun x => decide (x ≠ a)) = [] := by
          subst hka
          simp
        rw [hk1, List.append_nil]
        rfl
      · rw [if_neg hkl, if_neg (by
          rw [List.mem_cons]
          rintro (h0 | h0)
          · exact hka h0
          · exact hkl h0)]
        rw [List.filter_append]
        have hk1 : [k].filter (fun x => decide (x ≠ a)) = [k] := by
          simp [hka]
        rw [hk1]
        rfl

/-- `lastAssoc` over a list extended by one pair. -/
theorem lastAssoc_append_single (ps : List (String × α)) (p : String × α) (k : String) :
    lastAssoc (ps ++ [p]) k = if p.1 = k then some p.2 else lastAssoc ps k := by
  unfold lastAssoc
  rw [List.foldl_append]
  rfl

/-- `lastFileNamed` over a list extended by one file. -/
theorem lastFileNamed_append_single (fs : List SpecFile) (f : SpecFile) (k : String) :
    lastFileNamed (fs ++ [f]) k =
      if f.example_name = k then some f else lastFileNamed fs k := by
  unfold lastFileNamed
  rw [List.foldl_append]
  rfl

/-- Folding ordered-dict insertion over a pair list: the key list is the
first-occurrence deduplication of the keys, and each key maps to its last
binding. -/
theorem odFold_spec (ps : List (String × α)) :
    (odFold ps).map Prod.fst = dedupFirst (ps.map Prod.fst) ∧
    ∀ k, assocFind (odFold ps) k = lastAssoc ps k := by
  induction ps using List.reverseRecOn with
  | nil =>
    exact ⟨rfl, fun k => rfl⟩
  | append_singleton ps p ih =>
    have hfold : odFold (ps ++ [p]) = odInsert (odFold ps) p.1 p.2 := by
      unfold odFold
      rw [List.foldl_append]
      rfl
    constructor
    · rw [hfold, odInsert_keys, ih.1, List.map_append]
      simp only [List.map_cons, List.map_nil]
      rw [dedupFirst_append_singleton]
      exact if_congr (mem_dedupFirst _ _) rfl rfl
    · intro k
      rw [hfold, lastAssoc_append_single]
      by_cases hk : p.1 = k
      · subst hk
        rw [if_pos rfl, assocFind_odInsert_self]
      · rw [if_neg hk, assocFind_odInsert_ne _ _ _ _ (fun h => hk h.symm), ih.2 k]

/-- When every file renders, the file loop computes the ordered-dict fold of
the per-file results. -/
theorem render_files_eq (fs : List SpecFile) :
    ∀ acc, (∀ f ∈ fs, (render_file f).isSome) →
      render_files fs acc =
        some ((filePairs fs).foldl (fun m p => odInsert m p.1 p.2) acc) := by
  induction fs with
  | nil => intro acc _; rfl
  | cons f fs ih =>
    intro acc h
    obtain ⟨r, hr⟩ := Option.isSome_iff_exists.mp (h f (by simp))
    rw [show render_files (f :: fs) acc =
        (match render_file f with
         | none => none
         | some r => render_files fs (odInsert acc f.example_name r)) from rfl, hr]
    have hfp : filePairs (f :: fs) = (f.example_name, r) :: filePairs fs := by
      rw [filePairs_cons, hr]
    rw [hfp, List.foldl_cons]
    exact ih _ (fun g hg => h g (by simp [hg]))

/-- When every file renders, the pair list keeps the file names in order. -/
theorem filePairs_keys (fs : List SpecFile) (h : ∀ f ∈ fs, (render_file f).isSome) :
    (filePairs fs).map Prod.fst = fs.map SpecFile.example_name := by
  induction fs with
  | nil => rfl
  | cons f fs ih =>
    obtain ⟨r, hr⟩ := Option.isSome_iff_exists.mp (h f (by simp))
    have hfp : filePairs (f :: fs) = (f.example_name, r) :: filePairs fs := by
      rw [filePairs_cons, hr]
    rw [hfp, List.map_cons, List.map_cons, ih (fun g hg => h g (by simp [hg]))]

/-- `filePairs` distributes over append. -/
theorem filePairs_append (fs gs : List SpecFile) :
    filePairs (fs ++ gs) = filePairs fs ++ filePairs gs := by
  induction fs with
  | nil => rfl
  | cons f fs ih =>
    show filePairs (f :: (fs ++ gs)) = filePairs (f :: fs) ++ filePairs gs
    rw [filePairs_cons, filePairs_cons]
    rcases render_file f with _ | r <;> simp [ih]

/-- When every file renders, the last binding of a key among the pairs is the
render result of the last file with that name. -/
theorem lastAssoc_filePairs (fs : List SpecFile) :
    (∀ f ∈ fs, (render_file f).isSome) → ∀ k,
      lastAssoc (filePairs fs) k = (lastFileNamed fs k).bind render_file := by
  induction fs using List.reverseRecOn with
  | nil => intro _ k; rfl
  | append_singleton fs f ih =>
    intro h k
    obtain ⟨r, hr⟩ := Option.isSome_iff_exists.mp (h f (by simp))
    have hsingle : filePairs [f] = [(f.example_name, r)] := by
      rw [filePairs_cons, hr]
      rfl
    rw [filePairs_append, hsingle, lastAssoc_append_single, lastFileNamed_append_single]
    by_cases hk : f.example_name = k
    · rw [if_pos hk, if_pos hk]
      simp [hr]
    · rw [if_neg hk, if_neg hk, ih (fun g hg => h g (by simp [hg])) k]

/-- C9: when every file renders, duplicate `example_name`s raise no error:
the returned mapping holds each name once, at the position of its first
occurrence, bound to the render result of the last file with that name. -/
theorem claim_C9_last_writer_wins (spec : ConfigSpecData)
    (h : ∀ f ∈ spec.files, (render_file f).isSome) :
    ∃ m, ExampleConsumer.render ⟨spec⟩ = some m ∧
      m.map Prod.fst = dedupFirst (spec.files.map SpecFile.example_name) ∧
      (m.map Prod.fst).Nodup ∧
      ∀ k, assocFind m k = (lastFileNamed spec.files k).bind render_file := by
  refine ⟨odFold (filePairs spec.files), ?_, ?_, ?_, ?_⟩
  · exact render_files_eq spec.files [] h
  · rw [(odFold_spec _).1, filePairs_keys spec.files h]
  · rw [(odFold_spec _).1]
    exact nodup_dedupFirst _
  · intro k
    rw [(odFold_spec _).2 k, lastAssoc_filePairs spec.files h k]

/-- C9 witness: the theorem applied to two files sharing an `example_name`;
the duplicate key maps to the second file's result at the first position. -/
theorem claim_C9_last_writer_wins_witness :
    ∃ m, ExampleConsumer.render
        ⟨⟨[⟨"conf.yaml.example", [portRequired]⟩, ⟨"conf.yaml.example", [portOptional]⟩]⟩⟩ =
        some m ∧
      m.map Prod.fst =
        dedupFirst ([⟨"conf.yaml.example", [portRequired]⟩,
          (⟨"conf.yaml.example", [portOptional]⟩ : SpecFile)].map SpecFile.example_name) ∧
      (m.map Prod.fst).Nodup ∧
      assocFind m "conf.yaml.example" =
        (lastFileNamed [⟨"conf.yaml.example", [portRequired]⟩,
          ⟨"conf.yaml.example", [portOptional]⟩] "conf.yaml.example").bind render_file := by
  obtain ⟨m, h1, h2, h3, h4⟩ := claim_C9_last_writer_wins
    ⟨[⟨"conf.yaml.example", [portRequired]⟩, ⟨"conf.yaml.example", [portOptional]⟩]⟩
    (by decide)
  exact ⟨m, h1, h2, h3, h4 "conf.yaml.example"⟩

/-- C1: for a spec with one file containing the single required option
`port` (type `integer`, example `8125`, description `"The port to use."`),
`ExampleConsumer.render` maps that file's `example_name` to the exact content
`"## port - integer - required\n## The port to use.\n#\nport: 8125\n"` with an
empty diagnostics list; for the same option with `required = false`, the
content is identical except the header line is
`## port - integer - optional - default: 8125` and the example line is
`# port: 8125`. -/
theorem claim_C1_end_to_end :
    ExampleConsumer.render ⟨⟨[⟨"conf.yaml.example", [portRequired]⟩]⟩⟩ =
      some [("conf.yaml.example",
        ("## port - integer - required\n## The port to use.\n#\nport: 8125\n", []))] ∧
    ExampleConsumer.render ⟨⟨[⟨"conf.yaml.example", [portOptional]⟩]⟩⟩ =
      some [("conf.yaml.example",
        ("## port - integer - optional - default: 8125\n## The port to use.\n#\n# port: 8125\n",
          []))] := by
  exact ⟨by decide, by decide⟩

/-- C7: the type descriptor is total on value specs satisfying the data-model
invariant (arrays carry an `items` entry) and satisfies: `object` yields
`"mapping"`; `array` over `object` yields `"list of mappings"`; `array` over
`array` yields `"list of lists"`; `array` over any other item type `T` yields
`"list of " ++ T ++ "s"`; any other type `T` yields `T` verbatim; in
particular the three concrete examples of the spec. -/
theorem claim_C7_type_descriptor :
    (∀ v : ValueSpec, (v.type = "array" → v.items.isSome) → (value_type_string v).isSome) ∧
    (∀ v : ValueSpec, v.type = "object" → value_type_string v = some "mapping") ∧
    (∀ (v : ValueSpec) (it : ItemSpec), v.type = "array" → v.items = some it →
      value_type_string v = some
        (if it.type = "object" then "list of mappings"
         else if it.type = "array" then "list of lists"
         else "list of " ++ it.type ++ "s")) ∧
    (∀ v : ValueSpec, v.type ≠ "object" → v.type ≠ "array" →
      value_type_string v = some v.type) ∧
    value_type_string ⟨"array", some ⟨"integer"⟩, none⟩ = some "list of integers" ∧
    value_type_string ⟨"object", none, none⟩ = some "mapping" ∧
    value_type_string ⟨"string", none, none⟩ = some "string" := by
  refine ⟨?_, ?_, ?_, ?_, by decide, by decide, by decide⟩
  · intro v hinv
    by_cases ho : v.type = "object"
    · simp [value_type_string, ho]
    · by_cases ha : v.type = "array"
      · rcases hit : v.items with _ | it
        · rw [hit] at hinv; simp [ha] at hinv
        · simp only [value_type_string, ho, if_false, ha, if_true, hit]
          split_ifs <;> simp
      · simp [value_type_string, ho, ha]
  · intro v ho; simp [value_type_string, ho]
  · intro v it ha hit
    have ho : ¬ v.type = "object" := by rw [ha]; decide
    simp only [value_type_string, ho, if_false, ha, if_true, hit]
    rw [if_neg (by decide)]
    split_ifs <;> rfl
  · intro v ho ha; simp [value_type_string, ho, ha]

/-- C7 witness: the theorem applied at the spec's three concrete examples and
at one value of each shape, discharging the hypotheses concretely. -/
theorem claim_C7_type_descriptor_witness :
    (value_type_string ⟨"array", some ⟨"integer"⟩, none⟩).isSome ∧
    value_type_string ⟨"object", none, some (.pyint 1)⟩ = some "mapping" ∧
    value_type_string ⟨"array", some ⟨"string"⟩, none⟩ = some "list of strings" ∧
    value_type_string ⟨"boolean", none, none⟩ = some "boolean" := by
  refine ⟨claim_C7_type_descriptor.1 _ (fun _ => by decide),
    claim_C7_type_descriptor.2.1 _ (by decide),
    ?_, claim_C7_type_descriptor.2.2.2.1 _ (by decide) (by decide)⟩
  have h := claim_C7_type_descriptor.2.2.1 ⟨"array", some ⟨"string"⟩, none⟩ ⟨"string"⟩
    (by decide) (by decide)
  simpa using h

/-- C10: the first-of-multiple dispatch reads the first child's `required`
key with a raising lookup, so a `multiple` section whose first child carries
no `required` key (as a section child does) makes `write_option` fail with a
key-lookup error instead of producing output. -/
theorem claim_C10_missing_required_key (nm d : String) (r? : Option Bool)
    (e? : Option PyValue) (c : SchemaOption) (rest : SchemaOptions)
    (w : OptionWriter) (ind : String) (sl : Bool)
    (hc : c.required = none) :
    write_option (.mk nm d r? none true (.cons c rest) (some true) e?) w ind sl = none := by
  rw [write_option, section_options_shape]
  dsimp only
  rw [write_options_loop_cons]
  simp [hc]

/-- C10 witness: the theorem applied to a concrete `multiple` section whose
first child is itself a section. -/
theorem claim_C10_missing_required_key_witness :
    write_option sectionFirstSection OptionWriter.empty "" false = none :=
  claim_C10_missing_required_key "instances" "Every instance." none none
    (.mk "logs" "Log section." none none false .nil none none) .nil
    OptionWriter.empty "" false rfl

/-- C5: for an optional value option the header carries a `" - default: "`
suffix exactly when the example is a boolean (rendered `true`/`false`), an
integer or float (rendered by their canonical numeric formatting), or a
string differing from the name-derived default string; a string equal to the
name-derived default, a mapping, a sequence, or an absent example produce no
suffix. -/
theorem claim_C5_default_suffix (nm d : String) (v : ValueSpec) (ho : Bool)
    (os : SchemaOptions) (m : Option Bool) (e : Option PyValue) (w : OptionWriter)
    (ind : String) (sl : Bool) (ts : String) (hts : value_type_string v = some ts) :
    ∃ w' sfx rest,
      write_option (.mk nm d (some false) (some v) ho os m e) w ind sl = some w' ∧
      w'.contents = w.contents ++ ind ++ "## " ++ nm ++ " - " ++ ts ++ " - optional" ++ sfx ++
        "\n" ++ rest ∧
      ((∃ b, v.exampleKey = some (.pybool b) ∧
          sfx = " - default: " ++ (if b then "true" else "false")) ∨
       (∃ n, v.exampleKey = some (.pyint n) ∧ sfx = " - default: " ++ toString n) ∨
       (∃ r, v.exampleKey = some (.pyfloat r) ∧ sfx = " - default: " ++ r) ∨
       (∃ s, v.exampleKey = some (.pystr s) ∧ s ≠ default_option_example nm ∧
          sfx = " - default: " ++ s) ∨
       (sfx = "" ∧
         (v.exampleKey = none ∨ v.exampleKey = some .pynone ∨
          v.exampleKey = some (.pystr (default_option_example nm)) ∨
          (∃ xs, v.exampleKey = some (.pylist xs)) ∨
          (∃ xs, v.exampleKey = some (.pydict xs))))) := by
  rw [write_option, value_option_shape true nm d false v ho os m e w ind sl ts hts]
  refine ⟨_, header_default_suffix nm v.exampleKey,
    description_text ind (splitlines d) ++ ind ++ "#\n" ++
      example_block (if sl then dropLast2 ind else ind) false
        (if sl then
          construct_yaml (.pylist (.cons (.pydict (.cons nm
            (match v.exampleKey with | some x => x | none => .pynone) .nil)) .nil))
         else construct_yaml (.pydict (.cons nm
            (match v.exampleKey with | some x => x | none => .pynone) .nil))),
    rfl, ?_, ?_⟩
  · cases sl <;>
      simp [value_option_text, header_line, String.append_assoc]
  · rcases v.exampleKey with _ | pv
    · simp [header_default_suffix]
    · cases pv with
      | pynone => simp [header_default_suffix]
      | pybool b => simp [header_default_suffix]
      | pyint n => simp [header_default_suffix]
      | pyfloat r => simp [header_default_suffix]
      | pystr s =>
        rcases eq_or_ne s (default_option_example nm) with hs | hs
        · subst hs; simp [header_default_suffix]
        · simp [header_default_suffix, hs]
      | pylist xs => simp [header_default_suffix]
      | pydict xs => simp [header_default_suffix]

/-- C5 witness: the theorem applied to the optional `port` option, whose
integer example `8125` yields the `" - default: 8125"` suffix. -/
theorem claim_C5_default_suffix_witness :
    ∃ w' sfx rest,
      write_option portOptional OptionWriter.empty "" false = some w' ∧
      w'.contents = "".append "" ++ "## " ++ "port" ++ " - " ++ "integer" ++ " - optional" ++
        sfx ++ "\n" ++ rest ∧
      ((∃ b, (some (PyValue.pyint 8125) : Option PyValue) = some (.pybool b) ∧
          sfx = " - default: " ++ (if b then "true" else "false")) ∨
       (∃ n, (some (PyValue.pyint 8125) : Option PyValue) = some (.pyint n) ∧
          sfx = " - default: " ++ toString n) ∨
       (∃ r, (some (PyValue.pyint 8125) : Option PyValue) = some (.pyfloat r) ∧
          sfx = " - default: " ++ r) ∨
       (∃ s, (some (PyValue.pyint 8125) : Option PyValue) = some (.pystr s) ∧
          s ≠ default_option_example "port" ∧ sfx = " - default: " ++ s) ∨
       (sfx = "" ∧
         ((some (PyValue.pyint 8125) : Option PyValue) = none ∨
          (some (PyValue.pyint 8125) : Option PyValue) = some .pynone ∨
          (some (PyValue.pyint 8125) : Option PyValue) =
            some (.pystr (default_option_example "port")) ∨
          (∃ xs, (some (PyValue.pyint 8125) : Option PyValue) = some (.pylist xs)) ∨
          (∃ xs, (some (PyValue.pyint 8125) : Option PyValue) = some (.pydict xs))))) := by
  have h := claim_C5_default_suffix "port" "The port to use."
    { type := "integer", items := none, exampleKey := some (.pyint 8125) }
    false .nil none none OptionWriter.empty "" false "integer" (by decide)
  simpa using h

/-- C6: every line of a value option's serialized example fragment is
prefixed with an extra `# ` comment marker exactly when the option is
optional; when required, every example line carries no comment marker and the
header line's last dash-segment is exactly `required`. -/
theorem claim_C6_comment_markers (nm d : String) (req : Bool) (v : ValueSpec) (ho : Bool)
    (os : SchemaOptions) (m : Option Bool) (e : Option PyValue) (w : OptionWriter)
    (ind : String) (sl : Bool) (ts : String) (hts : value_type_string v = some ts) :
    ∃ w',
      write_option (.mk nm d (some req) (some v) ho os m e) w ind sl = some w' ∧
      w'.contents = w.contents ++
        header_line ind nm ts req v.exampleKey ++ "\n" ++
        description_text ind (splitlines d) ++ ind ++ "#\n" ++
        strJoin ((splitlines
            (if sl then
              construct_yaml (.pylist (.cons (.pydict (.cons nm
                (match v.exampleKey with | some x => x | none => .pynone) .nil)) .nil))
             else construct_yaml (.pydict (.cons nm
                (match v.exampleKey with | some x => x | none => .pynone) .nil)))).map
          fun l => (if sl then dropLast2 ind else ind) ++ (if req then "" else "# ") ++ l ++ "\n") ∧
      (req = true →
        header_line ind nm ts req v.exampleKey =
          ind ++ "## " ++ nm ++ " - " ++ ts ++ " - " ++ "required") := by
  rw [write_option, value_option_shape true nm d req v ho os m e w ind sl ts hts]
  refine ⟨_, rfl, ?_, ?_⟩
  · cases sl <;>
      simp [value_option_text, example_block, String.append_assoc]
  · intro hreq
    subst hreq
    simp [header_line]

/-- C6 witness: the theorem applied to the required `port` option. -/
theorem claim_C6_comment_markers_witness :
    ∃ w',
      write_option portRequired OptionWriter.empty "" false = some w' ∧
      w'.contents = "".append "" ++
        header_line "" "port" "integer" true (some (.pyint 8125)) ++ "\n" ++
        description_text "" (splitlines "The port to use.") ++ "" ++ "#\n" ++
        strJoin ((splitlines
            (construct_yaml (.pydict (.cons "port"
              (match (some (PyValue.pyint 8125) : Option PyValue) with
               | some x => x | none => .pynone) .nil)))).map
          fun l => "" ++ "" ++ l ++ "\n") ∧
      (True →
        header_line "" "port" "integer" true (some (.pyint 8125)) =
          "" ++ "## " ++ "port" ++ " - " ++ "integer" ++ " - " ++ "required") := by
  have h := claim_C6_comment_markers "port" "The port to use." true
    { type := "integer", items := none, exampleKey := some (.pyint 8125) }
    false .nil none none OptionWriter.empty "" false "integer" (by decide)
  simpa using h

/-- C4 counterexample: for a concrete `multiple` section whose first child is
optional, the standalone list-item marker line is the bare `  -`, not the
claimed `  - ` (dedented indent followed by `- ` with its trailing space). -/
theorem claim_C4_counterexample :
    write_option optionalFirstSection OptionWriter.empty "" false =
      some { contents :=
        "## Every instance.\n#\ninstances:\n\n  -\n" ++
        "    ## port - integer - optional - default: 8125\n    ## The port to use.\n    #\n" ++
        "    # port: 8125\n",
             errors := [] } ∧
    ("  -" ∈ splitlines
      ("## Every instance.\n#\ninstances:\n\n  -\n" ++
        "    ## port - integer - optional - default: 8125\n    ## The port to use.\n    #\n" ++
        "    # port: 8125\n")) ∧
    ¬ ("  - " ∈ splitlines
      ("## Every instance.\n#\ninstances:\n\n  -\n" ++
        "    ## port - integer - optional - default: 8125\n    ## The port to use.\n    #\n" ++
        "    # port: 8125\n")) := by
  exact ⟨by decide, by decide, by decide⟩

/-- C4 (amended): for every `SectionOption` with `multiple = true`: a
required first child is rendered with `start_list = true` — its example
serialized as a one-element sequence — immediately after the blank line
following `name:`, with no standalone marker line; an optional first child is
preceded by a standalone marker line consisting of the dedented indent and a
bare `-` (no trailing space), then rendered normally; empty `options` yields
`name:`, a blank line, and the `- ` + empty-mapping placeholder line. -/
theorem claim_C4_multiple_section_first_child (nm d : String) (r? : Option Bool)
    (e? : Option PyValue) (w : OptionWriter) (ind : String) (sl : Bool) :
    (∀ (c : SchemaOption) (rest : SchemaOptions), c.required = some true →
      write_option (.mk nm d r? none true (.cons c rest) (some true) e?) w ind sl =
        (write_option_aux true c ((section_intro_writer w ind nm d).write "\n")
            (ind ++ "    ") true).bind
          fun w2 => write_options_loop true rest w2 (ind ++ "    ") true false) ∧
    (∀ (cnm cd : String) (cv : ValueSpec) (cho : Bool) (cos : SchemaOptions)
        (cm : Option Bool) (ce : Option PyValue) (w' : OptionWriter) (ni cts : String),
      value_type_string cv = some cts →
      write_option_aux true (.mk cnm cd (some true) (some cv) cho cos cm ce) w' ni true =
        some { contents := w'.contents ++ header_line ni cnm cts true cv.exampleKey ++ "\n" ++
                 description_text ni (splitlines cd) ++ ni ++ "#\n" ++
                 example_block (dropLast2 ni) true
                   (construct_yaml (.pylist (.cons (.pydict (.cons cnm
                     (match cv.exampleKey with | some x => x | none => .pynone) .nil)) .nil))),
               errors := w'.errors ++ description_errors ni "option" cnm (splitlines cd) }) ∧
    (∀ (c : SchemaOption) (rest : SchemaOptions), c.required = some false →
      write_option (.mk nm d r? none true (.cons c rest) (some true) e?) w ind sl =
        (write_option_aux true c (((section_intro_writer w ind nm d).write "\n").write
            (dropLast2 (ind ++ "    ") ++ "-\n")) (ind ++ "    ") false).bind
          fun w2 => write_options_loop true rest w2 (ind ++ "    ") true false) ∧
    (write_option (.mk nm d r? none true .nil (some true) e?) w ind sl =
      some ((section_intro_writer w ind nm d).write
        ("\n" ++ dropLast2 (ind ++ "    ") ++ "- \x7b\x7d\n"))) := by
  refine ⟨?_, ?_, ?_, ?_⟩
  · intro c rest hc
    rw [write_option, section_options_shape]
    dsimp only
    rw [write_options_loop_cons]
    simp [hc, section_intro_writer]
  · intro cnm cd cv cho cos cm ce w' ni cts hts
    rw [value_option_shape true cnm cd true cv cho cos cm ce w' ni true cts hts]
    simp [value_option_text, String.append_assoc]
  · intro c rest hc
    rw [write_option, section_options_shape]
    dsimp only
    rw [write_options_loop_cons]
    simp [hc, section_intro_writer]
  · rw [write_option, section_options_shape]
    dsimp only
    simp [section_intro_writer]

/-- C4 witness: the three hypothesis-bearing parts applied to the concrete
`multiple` sections with a required / optional first `port` child. -/
theorem claim_C4_multiple_section_first_child_witness :
    (write_option (.mk "instances" "Every instance." none none true
        (.cons portRequired .nil) (some true) none) OptionWriter.empty "" false =
      (write_option_aux true portRequired
          ((section_intro_writer OptionWriter.empty "" "instances" "Every instance.").write "\n")
          ("" ++ "    ") true).bind
        fun w2 => write_options_loop true .nil w2 ("" ++ "    ") true false) ∧
    (write_option_aux true (.mk "port" "The port to use." (some true)
        (some { type := "integer", items := none, exampleKey := some (.pyint 8125) })
        false .nil none none) OptionWriter.empty "    " true =
      some { contents := OptionWriter.empty.contents ++
               header_line "    " "port" "integer" true (some (.pyint 8125)) ++ "\n" ++
               description_text "    " (splitlines "The port to use.") ++ "    " ++ "#\n" ++
               example_block (dropLast2 "    ") true
                 (construct_yaml (.pylist (.cons (.pydict (.cons "port"
                   (match (some (PyValue.pyint 8125) : Option PyValue) with
                    | some x => x | none => .pynone) .nil)) .nil))),
             errors := OptionWriter.empty.errors ++
               description_errors "    " "option" "port" (splitlines "The port to use.") }) ∧
    (write_option (.mk "instances" "Every instance." none none true
        (.cons portOptional .nil) (some true) none) OptionWriter.empty "" false =
      (write_option_aux true portOptional
          (((section_intro_writer OptionWriter.empty "" "instances" "Every instance.").write
            "\n").write (dropLast2 ("" ++ "    ") ++ "-\n")) ("" ++ "    ") false).bind
        fun w2 => write_options_loop true .nil w2 ("" ++ "    ") true false) := by
  refine ⟨(claim_C4_multiple_section_first_child "instances" "Every instance." none none
      OptionWriter.empty "" false).1 portRequired .nil rfl, ?_,
    (claim_C4_multiple_section_first_child "instances" "Every instance." none none
      OptionWriter.empty "" false).2.2.1 portOptional .nil rfl⟩
  exact (claim_C4_multiple_section_first_child "instances" "Every instance." none none
      OptionWriter.empty "" false).2.1 "port" "The port to use."
    { type := "integer", items := none, exampleKey := some (.pyint 8125) }
    false .nil none none OptionWriter.empty "    " "integer" (by decide)

/-- C3 counterexample: for a concrete empty `multiple` section at top level
the children indent is `"    "`, so a dedent of one full 4-space step would
put the empty-list placeholder at column 0; the renderer instead emits it at
two spaces — the actual output has the line `  - ` + empty braces and no
column-0 placeholder line. -/
theorem claim_C3_counterexample :
    write_option emptyMultipleSection OptionWriter.empty "" false =
      some { contents := "## Every instance.\n#\ninstances:\n\n  - \x7b\x7d\n", errors := [] } ∧
    ("  - \x7b\x7d" ∈ splitlines "## Every instance.\n#\ninstances:\n\n  - \x7b\x7d\n") ∧
    ¬ ("- \x7b\x7d" ∈ splitlines "## Every instance.\n#\ninstances:\n\n  - \x7b\x7d\n") := by
  exact ⟨by decide, by decide, by decide⟩

/-- C3 (amended): every nesting level adds a fixed 4-space indentation step
(children of a section are rendered at `ind ++ "    "`), while each
"reduced" adjustment — the standalone marker line, the empty-list
placeholder line, and the serialized fragment of a first-of-multiple child —
subtracts exactly two characters (the width of the `- ` list marker, half a
step), landing at `ind ++ "  "`. -/
theorem claim_C3_indent_steps (nm d : String) (r? : Option Bool) (e? : Option PyValue)
    (w : OptionWriter) (ind : String) (sl : Bool) :
    (∀ (c : SchemaOption) (rest : SchemaOptions) (mult : Bool),
      write_option (.mk nm d r? none true (.cons c rest) (some mult) e?) w ind sl =
        write_options_loop true (.cons c rest) (section_intro_writer w ind nm d)
          (ind ++ "    ") mult true) ∧
    (write_option (.mk nm d r? none true .nil (some true) e?) w ind sl =
      some ((section_intro_writer w ind nm d).write
        ("\n" ++ (ind ++ "  ") ++ "- \x7b\x7d\n"))) ∧
    (∀ (c : SchemaOption) (rest : SchemaOptions), c.required = some false →
      write_options_loop true (.cons c rest) (section_intro_writer w ind nm d)
          (ind ++ "    ") true true =
        (write_option_aux true c
            (((section_intro_writer w ind nm d).write "\n").write ((ind ++ "  ") ++ "-\n"))
            (ind ++ "    ") false).bind
          fun w2 => write_options_loop true rest w2 (ind ++ "    ") true false) ∧
    (∀ (cnm cd : String) (cv : ValueSpec) (cho : Bool) (cos : SchemaOptions)
        (cm : Option Bool) (ce : Option PyValue) (w' : OptionWriter) (cts : String),
      value_type_string cv = some cts →
      write_option_aux true (.mk cnm cd (some true) (some cv) cho cos cm ce) w'
          (ind ++ "    ") true =
        some { contents := w'.contents ++
                 header_line (ind ++ "    ") cnm cts true cv.exampleKey ++ "\n" ++
                 description_text (ind ++ "    ") (splitlines cd) ++ (ind ++ "    ") ++ "#\n" ++
                 example_block (ind ++ "  ") true
                   (construct_yaml (.pylist (.cons (.pydict (.cons cnm
                     (match cv.exampleKey with | some x => x | none => .pynone) .nil)) .nil))),
               errors := w'.errors ++
                 description_errors (ind ++ "    ") "option" cnm (splitlines cd) }) := by
  refine ⟨?_, ?_, ?_, ?_⟩
  · intro c rest mult
    rw [write_option, section_options_shape]
    dsimp only
    simp [section_intro_writer]
  · rw [write_option, section_options_shape]
    dsimp only
    simp [section_intro_writer, dropLast2_step]
  · intro c rest hc
    rw [write_options_loop_cons]
    simp [hc, dropLast2_step]
  · intro cnm cd cv cho cos cm ce w' cts hts
    rw [value_option_shape true cnm cd true cv cho cos cm ce w' (ind ++ "    ") true cts hts]
    simp [value_option_text, String.append_assoc, dropLast2_step]

/-- C3 witness: the hypothesis-bearing parts applied to the concrete optional
and required `port` children at top level. -/
theorem claim_C3_indent_steps_witness :
    (write_options_loop true (.cons portOptional .nil)
        (section_intro_writer OptionWriter.empty "" "instances" "Every instance.")
        ("" ++ "    ") true true =
      (write_option_aux true portOptional
          (((section_intro_writer OptionWriter.empty "" "instances"
            "Every instance.").write "\n").write (("" ++ "  ") ++ "-\n")) ("" ++ "    ") false).bind
        fun w2 => write_options_loop true .nil w2 ("" ++ "    ") true false) ∧
    (write_option_aux true (.mk "port" "The port to use." (some true)
        (some { type := "integer", items := none, exampleKey := some (.pyint 8125) })
        false .nil none none) OptionWriter.empty ("" ++ "    ") true =
      some { contents := OptionWriter.empty.contents ++
               header_line ("" ++ "    ") "port" "integer" true (some (.pyint 8125)) ++ "\n" ++
               description_text ("" ++ "    ") (splitlines "The port to use.") ++
                 ("" ++ "    ") ++ "#\n" ++
               example_block ("" ++ "  ") true
                 (construct_yaml (.pylist (.cons (.pydict (.cons "port"
                   (match (some (PyValue.pyint 8125) : Option PyValue) with
                    | some x => x | none => .pynone) .nil)) .nil))),
             errors := OptionWriter.empty.errors ++
               description_errors ("" ++ "    ") "option" "port"
                 (splitlines "The port to use.") }) :=
  ⟨(claim_C3_indent_steps "instances" "Every instance." none none
      OptionWriter.empty "" false).2.2.1 portOptional .nil rfl,
   (claim_C3_indent_steps "instances" "Every instance." none none
      OptionWriter.empty "" false).2.2.2 "port" "The port to use."
    { type := "integer", items := none, exampleKey := some (.pyint 8125) }
    false .nil none none OptionWriter.empty "integer" (by decide)⟩

end ExampleRenderer
